import Mathlib

/-!
Verification development for the regolith SVG railroad-diagram renderer
(`internal/renderer/renderer.go`, `internal/renderer/layout.go`, the SVG
element model, and `internal/ast`).

Modelling conventions:
* Go `float64` coordinates are embedded as exact rationals (`ℚ`).  The
  renderer only adds, subtracts, multiplies, halves and compares
  coordinates, so the algebra is faithful; the decimal formatting helpers
  below mirror the Go formatting functions on these exact values.
* Go strings are Lean `String`s; `len(s)` (byte length) is
  `String.utf8ByteSize`.
* The single piece of mutable state, `Renderer.subexpDepth` (a Go `int`),
  is threaded explicitly: every rendering function takes the current depth
  (`Int`) and returns the depth it leaves behind.
* Go struct field `Class` is spelled `cls` (`class` is a Lean keyword);
  all other names follow the source.
-/

/-- `html.EscapeString` escapes exactly the five characters
`&`, `'`, `<`, `>`, `"` (per-character replacement). -/
def escapeChar (c : Char) : String :=
  if c = '&' then "&amp;"
  else if c = '\'' then "&#39;"
  else if c = '<' then "&lt;"
  else if c = '>' then "&gt;"
  else if c = '"' then "&#34;"
  else String.mk [c]

/-- `html.EscapeString` applied to a whole string. -/
def escapeString (s : String) : String :=
  String.join (s.data.map escapeChar)

/-- The exact value of Go `math.MaxFloat64`. -/
def maxFloat64 : ℚ := 2 ^ 1024 - 2 ^ 971

/-- Left-pad a digit string with zeros to the given length. -/
def padZeros (n : ℕ) (s : String) : String :=
  String.mk (List.replicate (n - s.length) '0') ++ s

/-- Drop trailing `'0'` characters. -/
def trimZeroChars (s : String) : String :=
  String.mk (s.data.reverse.dropWhile (fun c => c = '0')).reverse

/-- `fmtFloat` (svg.go): fixed 10-decimal formatting with trailing zeros
(and a trailing dot) trimmed, e.g. `68.8000000000 -> 68.8`, `10 -> 10`.
On the exact rationals of this embedding the scaled value
`|v| * 10 ^ 10` is rounded half-up to the integer `n`, computed directly
on the reduced numerator and denominator:
`n = (2 * |num| * 10 ^ 10 + den) / (2 * den)` (Go rounds the underlying
binary float to 10 decimals). -/
def fmtFloat (v : ℚ) : String :=
  let sign := if v.num < 0 then "-" else ""
  let n : ℕ := (2 * v.num.natAbs * 10 ^ 10 + v.den) / (2 * v.den)
  let ip : ℕ := n / 10 ^ 10
  let fp : ℕ := n % 10 ^ 10
  if fp = 0 then sign ++ toString ip
  else sign ++ toString ip ++ "." ++ trimZeroChars (padZeros 10 (toString fp))

/-- Models `fmt.Sprintf` `%g` on the coordinate values arising in the
renderer: Go prints the shortest decimal form of the float, which on the
terminating decimals produced by the layout coincides with the trimmed
fixed-decimal form of `fmtFloat` (in particular `%g` of `0` is `"0"`). -/
def fmtG (v : ℚ) : String := fmtFloat v

/-- Models `fmt.Sprintf` `%.2f`: two decimal digits, never trimmed
(e.g. `0 -> "0.00"`); the scaled value is rounded half-up as in
`fmtFloat`. -/
def fmt2f (v : ℚ) : String :=
  let sign := if v.num < 0 then "-" else ""
  let n : ℕ := (2 * v.num.natAbs * 100 + v.den) / (2 * v.den)
  sign ++ toString (n / 100) ++ "." ++ padZeros 2 (toString (n % 100))

/-- Substring test (`strings.Contains`): some tail of `s` has `pat` as a
prefix. -/
def strHasSub (pat s : String) : Bool :=
  s.data.tails.any (fun t => pat.data.isPrefixOf t)

/-- A `<tspan>` child of a text element (svg.go `TSpan`). -/
structure TSpan where
  content : String
  cls : String
  fill : String
deriving DecidableEq

/-- The SVG element model of svg.go: `Group`, `Rect`, `Text`, `Path`,
`Line`, `Title` and the root `SVG`, each with the fields of the Go
structs (`Class` is `cls`). -/
inductive SVGElement where
  | group (cls transform : String) (children : List SVGElement)
  | rect (x y width height rx ry : ℚ) (fill stroke : String)
      (strokeWidth : ℚ) (cls : String)
  | text (x y : ℚ) (content fontFamily : String) (fontSize : ℚ)
      (fill anchor cls : String) (spans : List TSpan)
  | path (d fill stroke : String) (strokeWidth : ℚ) (cls : String)
  | line (x1 y1 x2 y2 : ℚ) (stroke : String) (strokeWidth : ℚ) (cls : String)
  | title (content : String)
  | svg (width height : ℚ) (viewBox style : String) (children : List SVGElement)

/-- `TSpan.Render`. -/
def renderTSpan (ts : TSpan) : String :=
  let attrs := (if ts.cls ≠ "" then ["class=\"" ++ ts.cls ++ "\""] else [])
    ++ (if ts.fill ≠ "" then ["fill=\"" ++ ts.fill ++ "\""] else [])
  let attrStr := if attrs.length > 0 then " " ++ String.intercalate " " attrs else ""
  "<tspan" ++ attrStr ++ ">" ++ escapeString ts.content ++ "</tspan>"

mutual
/-- The `Render` method of each svg.go element type: fixed attribute
lists, attributes elided when zero/empty exactly as in the source. -/
def renderElem : SVGElement → String
  | .group cls transform children =>
    let attrs := (if cls ≠ "" then ["class=\"" ++ cls ++ "\""] else [])
      ++ (if transform ≠ "" then ["transform=\"" ++ transform ++ "\""] else [])
    let attrStr := if attrs.length > 0 then " " ++ String.intercalate " " attrs else ""
    "<g" ++ attrStr ++ ">" ++ renderElems children ++ "</g>"
  | .rect x y width height rx ry fill stroke strokeWidth cls =>
    let attrs := ["x=\"" ++ fmtFloat x ++ "\"", "y=\"" ++ fmtFloat y ++ "\"",
        "width=\"" ++ fmtFloat width ++ "\"", "height=\"" ++ fmtFloat height ++ "\""]
      ++ (if rx > 0 then ["rx=\"" ++ fmtFloat rx ++ "\""] else [])
      ++ (if ry > 0 then ["ry=\"" ++ fmtFloat ry ++ "\""] else [])
      ++ (if fill ≠ "" then ["fill=\"" ++ fill ++ "\""] else [])
      ++ (if stroke ≠ "" then ["stroke=\"" ++ stroke ++ "\""] else [])
      ++ (if strokeWidth > 0 then ["stroke-width=\"" ++ fmtFloat strokeWidth ++ "\""] else [])
      ++ (if cls ≠ "" then ["class=\"" ++ cls ++ "\""] else [])
    "<rect " ++ String.intercalate " " attrs ++ "/>"
  | .text x y content fontFamily fontSize fill anchor cls spans =>
    let attrs := ["x=\"" ++ fmtFloat x ++ "\"", "y=\"" ++ fmtFloat y ++ "\""]
      ++ (if fontFamily ≠ "" then ["font-family=\"" ++ fontFamily ++ "\""] else [])
      ++ (if fontSize > 0 then ["font-size=\"" ++ fmtFloat fontSize ++ "\""] else [])
      ++ (if fill ≠ "" then ["fill=\"" ++ fill ++ "\""] else [])
      ++ (if anchor ≠ "" then ["text-anchor=\"" ++ anchor ++ "\""] else [])
      ++ (if cls ≠ "" then ["class=\"" ++ cls ++ "\""] else [])
    let inner := if spans.length > 0 then String.join (spans.map renderTSpan)
      else escapeString content
    "<text " ++ String.intercalate " " attrs ++ ">" ++ inner ++ "</text>"
  | .path d fill stroke strokeWidth cls =>
    let attrs := ["d=\"" ++ d ++ "\""]
      ++ (if fill ≠ "" then ["fill=\"" ++ fill ++ "\""] else ["fill=\"none\""])
      ++ (if stroke ≠ "" then ["stroke=\"" ++ stroke ++ "\""] else [])
      ++ (if strokeWidth > 0 then ["stroke-width=\"" ++ fmtFloat strokeWidth ++ "\""] else [])
      ++ (if cls ≠ "" then ["class=\"" ++ cls ++ "\""] else [])
    "<path " ++ String.intercalate " " attrs ++ "/>"
  | .line x1 y1 x2 y2 stroke strokeWidth cls =>
    let attrs := ["x1=\"" ++ fmtFloat x1 ++ "\"", "y1=\"" ++ fmtFloat y1 ++ "\"",
        "x2=\"" ++ fmtFloat x2 ++ "\"", "y2=\"" ++ fmtFloat y2 ++ "\""]
      ++ (if stroke ≠ "" then ["stroke=\"" ++ stroke ++ "\""] else [])
      ++ (if strokeWidth > 0 then ["stroke-width=\"" ++ fmtFloat strokeWidth ++ "\""] else [])
      ++ (if cls ≠ "" then ["class=\"" ++ cls ++ "\""] else [])
    "<line " ++ String.intercalate " " attrs ++ "/>"
  | .title content => "<title>" ++ escapeString content ++ "</title>"
  | .svg width height viewBox style children =>
    let attrs := ["xmlns=\"http://www.w3.org/2000/svg\""]
      ++ (if width > 0 then ["width=\"" ++ fmtFloat width ++ "\""] else [])
      ++ (if height > 0 then ["height=\"" ++ fmtFloat height ++ "\""] else [])
      ++ (if viewBox ≠ "" then ["viewBox=\"" ++ viewBox ++ "\""] else [])
    let styleStr := if style ≠ "" then "<style>" ++ style ++ "</style>" else ""
    "<svg " ++ String.intercalate " " attrs ++ ">" ++ styleStr
      ++ renderElems children ++ "</svg>"

/-- The `strings.Builder` loop concatenating child renders. -/
def renderElems : List SVGElement → String
  | [] => ""
  | e :: rest => renderElem e ++ renderElems rest
end

/-- config.go `Config`: all styling and dimension configuration. -/
structure Config where
  Padding : ℚ
  HorizontalGap : ℚ
  VerticalGap : ℚ
  CornerRadius : ℚ
  FontFamily : String
  FontSize : ℚ
  CharWidth : ℚ
  BackgroundColor : String
  TextColor : String
  LineColor : String
  LineWidth : ℚ
  LiteralFill : String
  CharsetFill : String
  EscapeFill : String
  AnchorFill : String
  SubexpFill : String
  SubexpStroke : String
  SubexpColors : List String
  AnyCharFill : String
  FlagsFill : String
  RepeatLabelColor : String
  RecursiveRefFill : String
  CalloutFill : String
  BacktrackControlFill : String
  ConditionalFill : String

/-- config.go `DefaultConfig`. -/
def DefaultConfig : Config where
  Padding := 10
  HorizontalGap := 10
  VerticalGap := 5
  CornerRadius := 3
  FontFamily := "monospace"
  FontSize := 14
  CharWidth := 8.4
  BackgroundColor := "transparent"
  TextColor := "#000"
  LineColor := "#000"
  LineWidth := 2
  LiteralFill := "#ff6b6b"
  CharsetFill := "#cbcbba"
  EscapeFill := "#bada55"
  AnchorFill := "#6b6659"
  SubexpFill := "none"
  SubexpStroke := "#908c83"
  SubexpColors := ["#cce5ff", "#d4edda", "#fff3cd", "#f8d7da", "#e2d5f0"]
  AnyCharFill := "#dae9e5"
  FlagsFill := "#c8e0f9"
  RepeatLabelColor := "#666"
  RecursiveRefFill := "#c9b3ff"
  CalloutFill := "#ffd699"
  BacktrackControlFill := "#ffb3a7"
  ConditionalFill := "#b3e5fc"

/-- layout.go `BoundingBox`: dimensions and anchor points of a rendered
element. -/
structure BoundingBox where
  X : ℚ
  Y : ℚ
  Width : ℚ
  Height : ℚ
  AnchorLeft : ℚ
  AnchorRight : ℚ
  AnchorY : ℚ
deriving DecidableEq

/-- The Go zero value `BoundingBox{}`. -/
def zeroBBox : BoundingBox := ⟨0, 0, 0, 0, 0, 0, 0⟩

/-- layout.go `NewBoundingBox`: default anchors (left edge, right edge,
vertical center). -/
def NewBoundingBox (x y width height : ℚ) : BoundingBox where
  X := x
  Y := y
  Width := width
  Height := height
  AnchorLeft := x
  AnchorRight := x + width
  AnchorY := y + height / 2

/-- `BoundingBox.X2`: right edge. -/
def BoundingBox.X2 (b : BoundingBox) : ℚ := b.X + b.Width

/-- `BoundingBox.Y2`: bottom edge. -/
def BoundingBox.Y2 (b : BoundingBox) : ℚ := b.Y + b.Height

/-- `BoundingBox.Translate`: shift by `dx, dy`. -/
def BoundingBox.Translate (b : BoundingBox) (dx dy : ℚ) : BoundingBox where
  X := b.X + dx
  Y := b.Y + dy
  Width := b.Width
  Height := b.Height
  AnchorLeft := b.AnchorLeft + dx
  AnchorRight := b.AnchorRight + dx
  AnchorY := b.AnchorY + dy

/-- layout.go `RenderedNode`: a drawable element paired with its box. -/
structure RenderedNode where
  Element : SVGElement
  BBox : BoundingBox

/-- A junk value used only to make total the Go indexing expressions
`result[0]` / `result[len(result)-1]`, which are evaluated exclusively on
non-empty slices. -/
def junkNode : RenderedNode := ⟨.group "" "" [], zeroBBox⟩

/-- layout.go `wrapWithTransform`: elide the wrapper when both offsets
are zero. -/
def wrapWithTransform (elem : SVGElement) (dx dy : ℚ) : SVGElement :=
  if dx = 0 ∧ dy = 0 then elem
  else .group "" ("translate(" ++ fmtFloat dx ++ "," ++ fmtFloat dy ++ ")") [elem]

/-- layout.go `MeasureText`: Go byte length times the configured
approximate character width. -/
def MeasureText (text : String) (cfg : Config) : ℚ :=
  (text.utf8ByteSize : ℚ) * cfg.CharWidth

/-- The `maxAnchorY` loop of `SpaceHorizontally` (initial value `0.0`,
strict-greater update). -/
def maxAnchorYLoop (acc : ℚ) : List RenderedNode → ℚ
  | [] => acc
  | item :: rest =>
    maxAnchorYLoop (if item.BBox.AnchorY > acc then item.BBox.AnchorY else acc) rest

/-- The main loop of `SpaceHorizontally`: running `x`, `minY`
(initially `math.MaxFloat64`) and `maxY` (initially `0.0`), translating
each item horizontally to `x` and vertically onto the shared anchor
line. Returns the translated items and the final `x`, `minY`, `maxY`. -/
def spaceHLoop (padding maxAnchorY : ℚ) (x minY maxY : ℚ) :
    List RenderedNode → List RenderedNode × ℚ × ℚ × ℚ
  | [] => ([], x, minY, maxY)
  | item :: rest =>
    let dy := maxAnchorY - item.BBox.AnchorY
    let newBBox := item.BBox.Translate (x - item.BBox.X) dy
    let r : RenderedNode := ⟨wrapWithTransform item.Element (x - item.BBox.X) dy, newBBox⟩
    let minY' := if newBBox.Y < minY then newBBox.Y else minY
    let maxY' := if newBBox.Y2 > maxY then newBBox.Y2 else maxY
    let (rs, xf, minf, maxf) := spaceHLoop padding maxAnchorY (newBBox.X2 + padding) minY' maxY' rest
    (r :: rs, xf, minf, maxf)

/-- layout.go `SpaceHorizontally`. -/
def SpaceHorizontally (items : List RenderedNode) (padding : ℚ) :
    List RenderedNode × BoundingBox :=
  match items with
  | [] => ([], zeroBBox)
  | _ :: _ =>
    let maxAnchorY := maxAnchorYLoop 0 items
    let (result, x, minY, maxY) := spaceHLoop padding maxAnchorY 0 maxFloat64 0 items
    let totalWidth := x - padding
    let totalWidth := if result.length > 0 then (result.getLastD junkNode).BBox.X2 else totalWidth
    (result,
      { X := 0
        Y := minY
        Width := totalWidth
        Height := maxY - minY
        AnchorLeft := (result.headD junkNode).BBox.AnchorLeft
        AnchorRight := (result.getLastD junkNode).BBox.AnchorRight
        AnchorY := maxAnchorY })

/-- The `maxWidth` loop of `SpaceVertically` (initial value `0.0`). -/
def maxWidthLoop (acc : ℚ) : List RenderedNode → ℚ
  | [] => acc
  | item :: rest =>
    maxWidthLoop (if item.BBox.Width > acc then item.BBox.Width else acc) rest

/-- The main loop of `SpaceVertically`: running `y`, stacking items and
centering each horizontally in `maxWidth`. -/
def spaceVLoop (padding maxWidth : ℚ) (y : ℚ) :
    List RenderedNode → List RenderedNode × ℚ
  | [] => ([], y)
  | item :: rest =>
    let dx := (maxWidth - item.BBox.Width) / 2
    let newBBox := item.BBox.Translate (dx - item.BBox.X) (y - item.BBox.Y)
    let r : RenderedNode := ⟨wrapWithTransform item.Element (dx - item.BBox.X) (y - item.BBox.Y), newBBox⟩
    let (rs, yf) := spaceVLoop padding maxWidth (newBBox.Y2 + padding) rest
    (r :: rs, yf)

/-- layout.go `SpaceVertically`. -/
def SpaceVertically (items : List RenderedNode) (padding : ℚ) :
    List RenderedNode × BoundingBox :=
  match items with
  | [] => ([], zeroBBox)
  | _ :: _ =>
    let maxWidth := maxWidthLoop 0 items
    let (result, y) := spaceVLoop padding maxWidth 0 items
    let totalHeight := y - padding
    let totalHeight := if result.length > 0 then (result.getLastD junkNode).BBox.Y2 else totalHeight
    (result,
      { X := 0
        Y := 0
        Width := maxWidth
        Height := totalHeight
        AnchorLeft := 0
        AnchorRight := maxWidth
        AnchorY := totalHeight / 2 })

/-- `PathBuilder.MoveTo` command text. -/
def pbMoveTo (x y : ℚ) : String := "M " ++ fmtFloat x ++ " " ++ fmtFloat y

/-- `PathBuilder.LineTo` command text. -/
def pbLineTo (x y : ℚ) : String := "L " ++ fmtFloat x ++ " " ++ fmtFloat y

/-- `PathBuilder.HorizontalTo` command text. -/
def pbHorizontalTo (x : ℚ) : String := "H " ++ fmtFloat x

/-- `PathBuilder.VerticalTo` command text. -/
def pbVerticalTo (y : ℚ) : String := "V " ++ fmtFloat y

/-- `PathBuilder.QuadraticTo` command text. -/
def pbQuadraticTo (cx cy x y : ℚ) : String :=
  "Q " ++ fmtFloat cx ++ " " ++ fmtFloat cy ++ " " ++ fmtFloat x ++ " " ++ fmtFloat y

/-- layout.go `joinPath`: commands separated by single spaces. -/
def joinPath : List String → String
  | [] => ""
  | [c] => c
  | c :: rest => c ++ " " ++ joinPath rest

example : renderElem (.group "" "" []) = "<g></g>" := by decide
example : renderElem (.group "flags" "" [.title "a<b"]) =
    "<g class=\"flags\"><title>a&lt;b</title></g>" := by decide
example : fmtFloat (344 / 5 : ℚ) = "68.8" := by with_unfolding_all rfl
example : fmtFloat (0 : ℚ) = "0" := by decide
example : fmt2f (0 : ℚ) = "0.00" := by decide

/-- ast.go `Repeat`: quantifier bounds (`Max = -1` means unbounded),
greediness and possessiveness. -/
structure Repeat where
  Min : Int
  Max : Int
  Greedy : Bool
  Possessive : Bool
deriving DecidableEq

/-- ast.go `PatternOption`: a PCRE2 pattern-start option. -/
structure PatternOption where
  Name : String
  Value : String
deriving DecidableEq

/-- ast.go `CharsetItem` implementations: `CharsetLiteral`,
`CharsetRange`, `Escape`, `POSIXClass`. -/
inductive CharsetItem where
  | charsetLiteral (Text : String)
  | charsetRange (First Last : String)
  | escape (EscapeType Code Value : String)
  | posixClass (Name : String) (Negated : Bool)
deriving DecidableEq

mutual
/-- ast.go `Regexp`: alternation branches, optional flags, PCRE pattern
start options. -/
inductive Regexp where
  | mk (Matches' : List Match) (Flags : String) (Options : List PatternOption)
/-- ast.go `Match`: one branch of an alternation. -/
inductive Match where
  | mk (Fragments : List MatchFragment)
/-- ast.go `MatchFragment`: a content node and an optional quantifier
(Go field `Repeat`, called `Rep` here). -/
inductive MatchFragment where
  | mk (Content : Node) (Rep : Option Repeat)
/-- The ast.go `Node` interface: one constructor per implementing type.
`atomicGroup` (ast.go `AtomicGroup`) is a `Node` implementation that
`renderNode`'s type switch does not handle. -/
inductive Node where
  | regexp (r : Regexp)
  | matchNode (m : Match)
  | matchFragment (mf : MatchFragment)
  | literal (Text : String)
  | escape (EscapeType Code Value : String)
  | anchor (AnchorType : String)
  | anyCharacter
  | charset (Inverted : Bool) (Items : List CharsetItem)
  | subexp (GroupType : String) (Number : Int) (Name : String) (rg : Regexp)
  | backReference (Number : Int) (Name : String)
  | unicodePropertyEscape (Property : String) (Negated : Bool)
  | quotedLiteral (Text : String)
  | comment (Text : String)
  | inlineModifier (Enable Disable : String) (rg : Option Regexp)
  | balancedGroup (Name OtherName : String) (rg : Regexp)
  | conditional (Condition : Node) (TrueMatch : Regexp) (FalseMatch : Option Regexp)
  | recursiveRef (Target : String)
  | branchReset (rg : Regexp)
  | backtrackControl (Verb Arg : String)
  | callout (CNumber : Int) (Text : String)
  | atomicGroup (rg : Regexp)
end

/-- `Regexp.Matches` field access. -/
def Regexp.Matches : Regexp → List Match
  | .mk ms _ _ => ms

/-- `Regexp.Flags` field access. -/
def Regexp.Flags : Regexp → String
  | .mk _ f _ => f

/-- `Regexp.Options` field access. -/
def Regexp.Options : Regexp → List PatternOption
  | .mk _ _ o => o

/-- The `Type()` method of each ast.go node kind. -/
def nodeType : Node → String
  | .regexp _ => "regexp"
  | .matchNode _ => "match"
  | .matchFragment _ => "match_fragment"
  | .literal _ => "literal"
  | .escape _ _ _ => "escape"
  | .anchor _ => "anchor"
  | .anyCharacter => "any_character"
  | .charset _ _ => "charset"
  | .subexp _ _ _ _ => "subexp"
  | .backReference _ _ => "back_reference"
  | .unicodePropertyEscape _ _ => "unicode_property_escape"
  | .quotedLiteral _ => "quoted_literal"
  | .comment _ => "comment"
  | .inlineModifier _ _ _ => "inline_modifier"
  | .balancedGroup _ _ _ => "balanced_group"
  | .conditional _ _ _ => "conditional"
  | .recursiveRef _ => "recursive_ref"
  | .branchReset _ => "branch_reset"
  | .backtrackControl _ _ => "backtrack_control"
  | .callout _ _ => "callout"
  | .atomicGroup _ => "atomic_group"

/-- renderer.go `renderLabel`: a labeled rounded box. -/
def renderLabel (cfg : Config) (text cls : String) : RenderedNode :=
  let textWidth := MeasureText text cfg
  let padding := cfg.Padding / 2
  let width := textWidth + 2 * padding
  let height := cfg.FontSize + 2 * padding
  let rect : SVGElement := .rect 0 0 width height cfg.CornerRadius cfg.CornerRadius "" "" 0 ""
  let textElem : SVGElement :=
    .text (width / 2) (height / 2 + cfg.FontSize / 3) text cfg.FontFamily cfg.FontSize "" "middle" "" []
  ⟨.group cls "" [rect, textElem], NewBoundingBox 0 0 width height⟩

/-- renderer.go `renderQuotedLabel`: literal text between quote glyph
tspans. -/
def renderQuotedLabel (cfg : Config) (text cls : String) : RenderedNode :=
  let quotedText := "\"" ++ text ++ "\""
  let textWidth := MeasureText quotedText cfg
  let padding := cfg.Padding / 2
  let width := textWidth + 2 * padding
  let height := cfg.FontSize + 2 * padding
  let rect : SVGElement := .rect 0 0 width height cfg.CornerRadius cfg.CornerRadius "" "" 0 ""
  let textElem : SVGElement :=
    .text (width / 2) (height / 2 + cfg.FontSize / 3) "" cfg.FontFamily cfg.FontSize "" "middle" ""
      [⟨"\"", "quote", ""⟩, ⟨text, "", ""⟩, ⟨"\"", "quote", ""⟩]
  ⟨.group cls "" [rect, textElem], NewBoundingBox 0 0 width height⟩

/-- The flag-description switch of renderer.go `renderFlags`: the seven
recognized flag characters; any other character contributes nothing. -/
def flagDesc (c : Char) : Option String :=
  if c = 'd' then some "hasIndices"
  else if c = 'g' then some "global"
  else if c = 'i' then some "ignore case"
  else if c = 'm' then some "multiline"
  else if c = 's' then some "dotAll"
  else if c = 'u' then some "unicode"
  else if c = 'y' then some "sticky"
  else none

/-- The `maxItemWidth` loop shared by `renderFlags` and
`renderLabeledBox` (initial value `0.0`, strict-greater update). -/
def maxTextWidthLoop (cfg : Config) (acc : ℚ) : List String → ℚ
  | [] => acc
  | item :: rest =>
    maxTextWidthLoop cfg (if MeasureText item cfg > acc then MeasureText item cfg else acc) rest

/-- The item-text loop shared by `renderFlags` and `renderLabeledBox`:
centered text lines advancing by `itemHeight`. -/
def itemTextsLoop (cfg : Config) (width itemHeight : ℚ) (y : ℚ) :
    List String → List SVGElement
  | [] => []
  | item :: rest =>
    .text (width / 2) y item cfg.FontFamily cfg.FontSize "" "middle" "" []
      :: itemTextsLoop cfg width itemHeight (y + itemHeight) rest

/-- renderer.go `renderFlags`: the flags box (label plus one description
row per recognized flag character). -/
def renderFlags (cfg : Config) (flags : String) : RenderedNode :=
  let padding := cfg.Padding
  let flagItems := flags.data.filterMap flagDesc
  let label := "Flags:"
  let labelWidth := MeasureText label cfg
  let maxItemWidth := maxTextWidthLoop cfg 0 flagItems
  let contentWidth := maxItemWidth + 2 * padding
  let contentWidth := if labelWidth > contentWidth then labelWidth else contentWidth
  let labelHeight := cfg.FontSize + padding
  let itemHeight := cfg.FontSize + padding / 2
  let contentHeight := (flagItems.length : ℚ) * itemHeight
  let width := contentWidth + 2 * padding
  let height := labelHeight + contentHeight + padding
  let children : List SVGElement :=
    [.rect 0 0 width height cfg.CornerRadius cfg.CornerRadius "" "" 0 "",
     .text padding cfg.FontSize label cfg.FontFamily (cfg.FontSize - 2) "" "" "flags-label" []]
    ++ itemTextsLoop cfg width itemHeight (labelHeight + cfg.FontSize) flagItems
  ⟨.group "flags" "" children, NewBoundingBox 0 0 width height⟩

/-- renderer.go `renderPatternOptions`: the PCRE pattern-start options
banner. -/
def renderPatternOptions (cfg : Config) (options : List PatternOption) : RenderedNode :=
  let padding := cfg.Padding / 2
  let parts := options.map fun opt =>
    if opt.Value ≠ "" then "*" ++ opt.Name ++ "=" ++ opt.Value else "*" ++ opt.Name
  let label := "Options: " ++ String.intercalate ", " parts
  let textWidth := MeasureText label cfg
  let width := textWidth + 2 * padding
  let height := cfg.FontSize + 2 * padding
  let rect : SVGElement :=
    .rect 0 0 width height cfg.CornerRadius cfg.CornerRadius "#e8e8e8" "#999" cfg.LineWidth ""
  let textElem : SVGElement :=
    .text (width / 2) (height / 2 + cfg.FontSize / 3) label cfg.FontFamily (cfg.FontSize - 2)
      "" "middle" "pattern-options-label" []
  ⟨.group "pattern-options" "" [rect, textElem], NewBoundingBox 0 0 width height⟩

/-- renderer.go `getStyles`: the embedded CSS, parameterized by the
config colors and font metrics (brace characters written `\x7b`/`\x7d`). -/
def getStyles (cfg : Config) : String :=
  "\n\t\t.literal rect \x7b fill: " ++ cfg.LiteralFill ++ "; \x7d" ++
  "\n\t\t.escape rect \x7b fill: " ++ cfg.EscapeFill ++ "; \x7d" ++
  "\n\t\t.charset rect \x7b fill: " ++ cfg.CharsetFill ++ "; \x7d" ++
  "\n\t\t.anchor rect \x7b fill: " ++ cfg.AnchorFill ++ "; \x7d" ++
  "\n\t\t.any-character rect \x7b fill: " ++ cfg.AnyCharFill ++ "; \x7d" ++
  "\n\t\t.flags rect \x7b fill: " ++ cfg.FlagsFill ++ "; \x7d" ++
  "\n\t\t.comment rect \x7b fill: #e8e8e8; stroke: #999; stroke-dasharray: 4,2; \x7d" ++
  "\n\t\t.comment text \x7b fill: #666; font-style: italic; \x7d" ++
  "\n\t\ttext \x7b font-family: " ++ cfg.FontFamily ++ "; font-size: " ++ fmtG cfg.FontSize ++
    "px; fill: " ++ cfg.TextColor ++ "; \x7d" ++
  "\n\t\t.anchor text \x7b fill: #fff; \x7d" ++
  "\n\t\t.quote \x7b fill: #000; \x7d" ++
  "\n\t\t.subexp-label, .charset-label, .flags-label \x7b font-size: " ++
    fmtG (cfg.FontSize - 2) ++ "px; font-style: italic; \x7d" ++
  "\n\t\t.repeat-label \x7b fill: " ++ cfg.RepeatLabelColor ++ "; font-size: " ++
    fmtG (cfg.FontSize - 2) ++ "px; \x7d" ++
  "\n\t"

/-- renderer.go `renderComment`: a dashed box with `# text` in smaller
font. -/
def renderComment (cfg : Config) (commentText : String) : RenderedNode :=
  let text := "# " ++ commentText
  let textWidth := MeasureText text cfg
  let padding := cfg.Padding / 2
  let width := textWidth + 2 * padding
  let height := cfg.FontSize + 2 * padding
  let rect : SVGElement := .rect 0 0 width height cfg.CornerRadius cfg.CornerRadius "" "" 0 ""
  let textElem : SVGElement :=
    .text (width / 2) (height / 2 + cfg.FontSize / 3) text cfg.FontFamily (cfg.FontSize - 2)
      "" "middle" "comment-text" []
  ⟨.group "comment" "" [rect, textElem], NewBoundingBox 0 0 width height⟩

/-- renderer.go `renderAnchor`: anchor-kind switch. -/
def renderAnchor (cfg : Config) (anchorType : String) : RenderedNode :=
  let label :=
    if anchorType = "start" then "Start of line"
    else if anchorType = "end" then "End of line"
    else if anchorType = "word_boundary" then "Word boundary"
    else if anchorType = "non_word_boundary" then "Non-word boundary"
    else if anchorType = "word_start" then "Start of word"
    else if anchorType = "word_end" then "End of word"
    else if anchorType = "string_start" then "Start of input"
    else if anchorType = "string_end" then "End of input"
    else if anchorType = "absolute_end" then "Absolute end"
    else if anchorType = "end_of_previous_match" then "End of previous match"
    else if anchorType = "grapheme_cluster_boundary" then "Grapheme cluster boundary"
    else anchorType
  renderLabel cfg label "anchor"

/-- renderer.go `renderBackReference`. -/
def renderBackReference (cfg : Config) (number : Int) (name : String) : RenderedNode :=
  let label :=
    if name ≠ "" then "back reference '" ++ name ++ "'"
    else "back reference #" ++ toString number
  renderLabel cfg label "escape"

/-- renderer.go `renderUnicodePropertyEscape`. -/
def renderUnicodePropertyEscape (cfg : Config) (property : String) (negated : Bool) :
    RenderedNode :=
  let label :=
    if negated then "NOT Unicode " ++ property else "Unicode " ++ property
  renderLabel cfg label "escape"

/-- renderer.go `renderRecursiveRef`. -/
def renderRecursiveRef (cfg : Config) (target : String) : RenderedNode :=
  let label :=
    if target = "R" ∨ target = "0" then "recurse whole pattern"
    else if target.length > 0 then
      let first := target.data.headD ' '
      if first = '+' ∨ first = '-' ∨ ('0' ≤ first ∧ first ≤ '9') then
        "recurse to group " ++ target
      else "recurse to '" ++ target ++ "'"
    else "recurse"
  renderLabel cfg label "recursive-ref"

/-- renderer.go `renderBacktrackControl`: verb switch. -/
def renderBacktrackControl (cfg : Config) (verb arg : String) : RenderedNode :=
  let label :=
    if verb = "ACCEPT" then "accept match"
    else if verb = "FAIL" then "force fail"
    else if verb = "MARK" then (if arg ≠ "" then "mark '" ++ arg ++ "'" else "mark")
    else if verb = "COMMIT" then "commit (no retry)"
    else if verb = "PRUNE" then (if arg ≠ "" then "prune '" ++ arg ++ "'" else "prune")
    else if verb = "SKIP" then (if arg ≠ "" then "skip to '" ++ arg ++ "'" else "skip")
    else if verb = "THEN" then (if arg ≠ "" then "then '" ++ arg ++ "'" else "then (try next alt)")
    else if arg ≠ "" then "*" ++ verb ++ ":" ++ arg
    else "*" ++ verb
  renderLabel cfg label "backtrack-control"

/-- renderer.go `renderCallout`. -/
def renderCallout (cfg : Config) (number : Int) (text : String) : RenderedNode :=
  let label :=
    if number ≥ 0 then "callout (" ++ toString number ++ ")"
    else "callout \"" ++ text ++ "\""
  renderLabel cfg label "callout"

/-- renderer.go `getPOSIXClassLabel`: keyed lookup in the fixed label
table (not an iteration), `NOT` prefix when negated. -/
def getPOSIXClassLabel (name : String) (negated : Bool) : String :=
  let label :=
    if name = "alnum" then "alphanumeric"
    else if name = "alpha" then "alphabetic"
    else if name = "blank" then "blank (space/tab)"
    else if name = "cntrl" then "control character"
    else if name = "digit" then "digit"
    else if name = "graph" then "visible character"
    else if name = "lower" then "lowercase"
    else if name = "print" then "printable"
    else if name = "punct" then "punctuation"
    else if name = "space" then "whitespace"
    else if name = "upper" then "uppercase"
    else if name = "xdigit" then "hex digit"
    else name
  if negated then "NOT " ++ label else label

/-- The charset-item text switch of renderer.go `renderCharset`. -/
def charsetItemText (it : CharsetItem) : String :=
  match it with
  | .charsetLiteral t => "\"" ++ t ++ "\""
  | .charsetRange f l => "\"" ++ f ++ "\" - \"" ++ l ++ "\""
  | .escape _ _ v => v
  | .posixClass n neg => getPOSIXClassLabel n neg

/-- renderer.go `renderLabeledBox`: heading line plus one centered text
line per item (used for charsets). -/
def renderLabeledBox (cfg : Config) (label : String) (items : List String) (cls : String) :
    RenderedNode :=
  let padding := cfg.Padding
  let labelWidth := MeasureText label cfg
  let maxItemWidth := maxTextWidthLoop cfg 0 items
  let contentWidth := maxItemWidth + 2 * padding
  let contentWidth := if labelWidth > contentWidth then labelWidth else contentWidth
  let labelHeight := cfg.FontSize + padding
  let itemHeight := cfg.FontSize + padding / 2
  let contentHeight := (items.length : ℚ) * itemHeight
  let width := contentWidth + 2 * padding
  let height := labelHeight + contentHeight + padding
  let children : List SVGElement :=
    [.rect 0 0 width height cfg.CornerRadius cfg.CornerRadius "" "" 0 "",
     .text padding cfg.FontSize label cfg.FontFamily (cfg.FontSize - 2) "" "" (cls ++ "-label") []]
    ++ itemTextsLoop cfg width itemHeight (labelHeight + cfg.FontSize) items
  ⟨.group cls "" children, NewBoundingBox 0 0 width height⟩

/-- renderer.go `renderCharset`. -/
def renderCharset (cfg : Config) (inverted : Bool) (items : List CharsetItem) : RenderedNode :=
  let itemTexts := items.map charsetItemText
  let label := if inverted then "None of:" else "One of:"
  renderLabeledBox cfg label itemTexts "charset"

/-- renderer.go `getRepeatLabel`: count label for a quantifier, with the
possessive suffix / standalone form. -/
def getRepeatLabel (rep : Repeat) : String :=
  let label :=
    if rep.Min = rep.Max then
      if rep.Min = 1 then "" else toString rep.Min ++ " times"
    else if rep.Max = -1 then
      if rep.Min = 0 then ""
      else if rep.Min = 1 then ""
      else toString rep.Min ++ "+ times"
    else toString rep.Min ++ " to " ++ toString rep.Max ++ " times"
  if rep.Possessive ∧ label ≠ "" then label ++ " (possessive)"
  else if rep.Possessive then "possessive"
  else label

/-- renderer.go `renderWithRepeat`: skip path above iff `Min == 0`, loop
path below iff `Max != 1`, greediness arrow, optional count label, stub
connectors. -/
def renderWithRepeat (cfg : Config) (content : RenderedNode) (rep : Repeat) : RenderedNode :=
  let curveRadius : ℚ := 10
  let hasSkip := rep.Min == 0
  let hasLoop := rep.Max != 1
  let skipHeight : ℚ := if hasSkip then curveRadius * 2 else 0
  let loopHeight : ℚ := if hasLoop then curveRadius * 2 else 0
  let contentOffsetY := skipHeight
  let contentOffsetX := curveRadius
  let width := content.BBox.Width + 2 * curveRadius
  let height := content.BBox.Height + skipHeight + loopHeight
  let anchorY := contentOffsetY + content.BBox.AnchorY
  let skipChildren : List SVGElement :=
    if hasSkip then
      [.path (joinPath [pbMoveTo 0 anchorY,
          pbQuadraticTo 0 (anchorY - curveRadius) curveRadius (anchorY - curveRadius),
          pbHorizontalTo (width - curveRadius),
          pbQuadraticTo width (anchorY - curveRadius) width anchorY])
        "" cfg.LineColor cfg.LineWidth "skip-path"]
    else []
  let loopY := contentOffsetY + content.BBox.Height + curveRadius
  let arrowX := width / 2
  let arrowY := loopY
  let arrowSize : ℚ := 5
  let arrowD :=
    if rep.Greedy then
      "M " ++ fmtG (arrowX + arrowSize) ++ " " ++ fmtG (arrowY - arrowSize) ++
      " L " ++ fmtG arrowX ++ " " ++ fmtG arrowY ++
      " L " ++ fmtG (arrowX + arrowSize) ++ " " ++ fmtG (arrowY + arrowSize)
    else
      "M " ++ fmtG (arrowX - arrowSize) ++ " " ++ fmtG (arrowY - arrowSize) ++
      " L " ++ fmtG arrowX ++ " " ++ fmtG arrowY ++
      " L " ++ fmtG (arrowX - arrowSize) ++ " " ++ fmtG (arrowY + arrowSize)
  let label := getRepeatLabel rep
  let loopChildren : List SVGElement :=
    if hasLoop then
      [.path (joinPath [pbMoveTo width anchorY,
          pbQuadraticTo width loopY (width - curveRadius) loopY,
          pbHorizontalTo curveRadius,
          pbQuadraticTo 0 loopY 0 anchorY])
        "" cfg.LineColor cfg.LineWidth "loop-path",
       .path arrowD "" cfg.LineColor cfg.LineWidth ""]
      ++ (if label != "" then
            [.text (width / 2) (loopY + cfg.FontSize) label cfg.FontFamily (cfg.FontSize - 2)
              "" "middle" "repeat-label" []]
          else [])
    else []
  let height := if hasLoop && label != "" then height + cfg.FontSize else height
  let contentGroup : SVGElement :=
    .group "" ("translate(" ++ fmtG contentOffsetX ++ "," ++ fmtG contentOffsetY ++ ")")
      [content.Element]
  let connectors : List SVGElement :=
    if hasSkip || hasLoop then
      [.line 0 anchorY contentOffsetX anchorY cfg.LineColor cfg.LineWidth "",
       .line (contentOffsetX + content.BBox.Width) anchorY width anchorY
         cfg.LineColor cfg.LineWidth ""]
    else []
  let children := skipChildren ++ loopChildren ++ [contentGroup] ++ connectors
  ⟨.group "repeat" "" children,
    { X := 0, Y := 0, Width := width, Height := height,
      AnchorLeft := 0, AnchorRight := width, AnchorY := anchorY }⟩

/-- renderer.go `renderSubexpBox`: titled box with explicit fill and the
subexp stroke. -/
def renderSubexpBox (cfg : Config) (label : String) (content : RenderedNode) (fill : String) :
    RenderedNode :=
  let padding := cfg.Padding
  let labelWidth := MeasureText label cfg
  let labelHeight := cfg.FontSize + padding
  let contentWidth := content.BBox.Width
  let contentWidth := if labelWidth > contentWidth then labelWidth else contentWidth
  let width := contentWidth + 2 * padding
  let height := labelHeight + content.BBox.Height + padding
  let contentX := (width - content.BBox.Width) / 2
  let contentY := labelHeight
  let children : List SVGElement :=
    [.rect 0 0 width height cfg.CornerRadius cfg.CornerRadius fill cfg.SubexpStroke
       cfg.LineWidth "",
     .text padding cfg.FontSize label cfg.FontFamily (cfg.FontSize - 2) "" "" "subexp-label" [],
     .group "" ("translate(" ++ fmtG contentX ++ "," ++ fmtG contentY ++ ")") [content.Element]]
  let anchorY := contentY + content.BBox.AnchorY
  ⟨.group "subexp" "" children,
    { X := 0, Y := 0, Width := width, Height := height,
      AnchorLeft := 0, AnchorRight := width, AnchorY := anchorY }⟩

/-- renderer.go `renderLabeledBoxWithContent`: titled box around rendered
content (plain rect). -/
def renderLabeledBoxWithContent (cfg : Config) (label : String) (content : RenderedNode)
    (cls : String) : RenderedNode :=
  let padding := cfg.Padding
  let labelWidth := MeasureText label cfg
  let labelHeight := cfg.FontSize + padding
  let contentWidth := content.BBox.Width
  let contentWidth := if labelWidth > contentWidth then labelWidth else contentWidth
  let width := contentWidth + 2 * padding
  let height := labelHeight + content.BBox.Height + padding
  let contentX := (width - content.BBox.Width) / 2
  let contentY := labelHeight
  let children : List SVGElement :=
    [.rect 0 0 width height cfg.CornerRadius cfg.CornerRadius "" "" 0 "",
     .text padding cfg.FontSize label cfg.FontFamily (cfg.FontSize - 2) "" ""
       (cls ++ "-label") [],
     .group "" ("translate(" ++ fmtG contentX ++ "," ++ fmtG contentY ++ ")") [content.Element]]
  let anchorY := contentY + content.BBox.AnchorY
  ⟨.group cls "" children,
    { X := 0, Y := 0, Width := width, Height := height,
      AnchorLeft := 0, AnchorRight := width, AnchorY := anchorY }⟩

/-- The inner loop of `renderMatch`'s connector path (from the second
spaced item on): `LineTo` the item's left anchor, then `MoveTo` its right
anchor unless it is the last item. -/
def matchConnCmds (y : ℚ) : List RenderedNode → List String
  | [] => []
  | [it] => [pbLineTo it.BBox.AnchorLeft y]
  | it :: rest => pbLineTo it.BBox.AnchorLeft y :: pbMoveTo it.BBox.AnchorRight y
      :: matchConnCmds y rest

/-- The assembly tail of renderer.go `renderMatch` after the fragments
have been rendered and spaced: connector path (when more than one item)
followed by the item elements, in a `match` group. -/
def assembleMatch (cfg : Config) (spacedItems : List RenderedNode) (totalBBox : BoundingBox) :
    RenderedNode :=
  let connector : List SVGElement :=
    if spacedItems.length > 1 then
      [.path (joinPath (pbMoveTo (spacedItems.headD junkNode).BBox.AnchorRight totalBBox.AnchorY
          :: matchConnCmds totalBBox.AnchorY spacedItems.tail))
        "" cfg.LineColor cfg.LineWidth ""]
    else []
  let children := connector ++ spacedItems.map (·.Element)
  ⟨.group "match" "" children, totalBBox⟩

/-- The per-branch entry/exit connector curves of renderer.go
`renderRegexp` (alternation): curve down / curve up / straight depending
on the branch anchor relative to the aggregate anchor. -/
def altConnPaths (cfg : Config) (width anchorY connectorWidth curveRadius : ℚ) :
    List RenderedNode → List SVGElement
  | [] => []
  | item :: rest =>
    let itemAnchorY := item.BBox.AnchorY
    let itemX := connectorWidth
    let leftD :=
      if itemAnchorY < anchorY then
        joinPath [pbMoveTo 0 anchorY,
          pbQuadraticTo curveRadius anchorY curveRadius (anchorY - curveRadius),
          pbVerticalTo (itemAnchorY + curveRadius),
          pbQuadraticTo curveRadius itemAnchorY itemX itemAnchorY]
      else if itemAnchorY > anchorY then
        joinPath [pbMoveTo 0 anchorY,
          pbQuadraticTo curveRadius anchorY curveRadius (anchorY + curveRadius),
          pbVerticalTo (itemAnchorY - curveRadius),
          pbQuadraticTo curveRadius itemAnchorY itemX itemAnchorY]
      else joinPath [pbMoveTo 0 anchorY, pbHorizontalTo itemX]
    let rightX := connectorWidth + item.BBox.Width
    let rightD :=
      if itemAnchorY < anchorY then
        joinPath [pbMoveTo rightX itemAnchorY,
          pbQuadraticTo (width - curveRadius) itemAnchorY (width - curveRadius)
            (itemAnchorY + curveRadius),
          pbVerticalTo (anchorY - curveRadius),
          pbQuadraticTo (width - curveRadius) anchorY width anchorY]
      else if itemAnchorY > anchorY then
        joinPath [pbMoveTo rightX itemAnchorY,
          pbQuadraticTo (width - curveRadius) itemAnchorY (width - curveRadius)
            (itemAnchorY - curveRadius),
          pbVerticalTo (anchorY + curveRadius),
          pbQuadraticTo (width - curveRadius) anchorY width anchorY]
      else joinPath [pbMoveTo rightX itemAnchorY, pbHorizontalTo width]
    .path leftD "" cfg.LineColor cfg.LineWidth ""
      :: .path rightD "" cfg.LineColor cfg.LineWidth ""
      :: altConnPaths cfg width anchorY connectorWidth curveRadius rest

/-- The per-branch offset groups of `renderRegexp` (alternation). -/
def altItemGroups (connectorWidth : ℚ) : List RenderedNode → List SVGElement
  | [] => []
  | item :: rest =>
    .group "" ("translate(" ++ fmtG connectorWidth ++ ",0)") [item.Element]
      :: altItemGroups connectorWidth rest

/-- The assembly tail of renderer.go `renderRegexp` for `N >= 2`
alternation branches, after the branches have been rendered and spaced
vertically. -/
def assembleAlternation (cfg : Config) (spacedItems : List RenderedNode)
    (totalBBox : BoundingBox) : RenderedNode :=
  let curveRadius : ℚ := 10
  let connectorWidth : ℚ := 20
  let width := totalBBox.Width + 2 * connectorWidth
  let height := totalBBox.Height
  let anchorY := height / 2
  let children := altConnPaths cfg width anchorY connectorWidth curveRadius spacedItems
    ++ altItemGroups connectorWidth spacedItems
  ⟨.group "regexp" "" children,
    { X := 0, Y := 0, Width := width, Height := height,
      AnchorLeft := 0, AnchorRight := width, AnchorY := anchorY }⟩

/-- The condition-label type switch of renderer.go `renderConditional`. -/
def condLabelOf (cond : Node) : String :=
  match cond with
  | .backReference n name =>
    if name ≠ "" then "if '" ++ name ++ "' matched"
    else if n ≥ 0 then "if group " ++ toString n ++ " matched"
    else "if group " ++ toString (-n) ++ " matched"
  | .recursiveRef target =>
    if target = "R" then "if in recursion"
    else if target = "DEFINE" ∨ target = "" then "DEFINE"
    else "if in recursion to '" ++ target ++ "'"
  | .literal t =>
    if t = "DEFINE" then "DEFINE" else "if " ++ t
  | .subexp groupType _ _ _ =>
    if groupType = "positive_lookahead" then "if followed by..."
    else if groupType = "negative_lookahead" then "if not followed by..."
    else if groupType = "positive_lookbehind" then "if preceded by..."
    else if groupType = "negative_lookbehind" then "if not preceded by..."
    else "if assertion"
  | _ => "if condition"

/-- The group-kind label switch of renderer.go `renderSubexp`. -/
def subexpLabel (groupType : String) (number : Int) (name : String) : String :=
  if groupType = "capture" then "group #" ++ toString number
  else if groupType = "named_capture" then "group #" ++ toString number ++ " '" ++ name ++ "'"
  else if groupType = "non_capture" then "non-capturing group"
  else if groupType = "positive_lookahead" then "positive lookahead"
  else if groupType = "negative_lookahead" then "negative lookahead"
  else if groupType = "positive_lookbehind" then "positive lookbehind"
  else if groupType = "negative_lookbehind" then "negative lookbehind"
  else if groupType = "non_atomic_positive_lookahead" then "non-atomic lookahead"
  else if groupType = "non_atomic_positive_lookbehind" then "non-atomic lookbehind"
  else if groupType = "script_run" then "script run"
  else if groupType = "atomic_script_run" then "atomic script run"
  else if groupType = "atomic" then "atomic group"
  else groupType

/-- The depth-to-fill selection appearing verbatim in renderer.go
`renderSubexp`, `renderBranchReset` and `renderBalancedGroup`: depth 0
uses `SubexpFill`; depth `d >= 1` with a non-empty palette uses
`SubexpColors[(d-1) % len]` (Go `%` is truncated division, `Int.tmod`);
an empty palette falls back to `SubexpFill`.  (For the negative depths
that no reachable call produces, Go would panic on a negative index; the
total embedding returns the `getD` default instead.) -/
def subexpFillForDepth (cfg : Config) (currentDepth : Int) : String :=
  if currentDepth = 0 then cfg.SubexpFill
  else if cfg.SubexpColors.length > 0 then
    cfg.SubexpColors.getD (Int.tmod (currentDepth - 1) (cfg.SubexpColors.length : Int)).toNat ""
  else cfg.SubexpFill

mutual
/-- renderer.go `renderRegexp`: no branches yields an empty group; one
branch delegates to `renderMatch`; otherwise branches are rendered in
order, spaced vertically with `VerticalGap * 2`, and assembled with
entry/exit connector curves. -/
def renderRegexp (cfg : Config) (st : Int) : Regexp → RenderedNode × Int
  | .mk ms _ _ =>
    match ms with
    | [] => (⟨.group "" "" [], NewBoundingBox 0 0 0 0⟩, st)
    | [m] => renderMatch cfg st m
    | l@(_ :: _ :: _) =>
      let (items, st') := renderAlternativeItems cfg st l
      let (spacedItems, totalBBox) := SpaceVertically items (cfg.VerticalGap * 2)
      (assembleAlternation cfg spacedItems totalBBox, st')

/-- The branch-rendering loop of `renderRegexp` (state threaded in
order). -/
def renderAlternativeItems (cfg : Config) (st : Int) : List Match → List RenderedNode × Int
  | [] => ([], st)
  | m :: rest =>
    let (rn, st1) := renderMatch cfg st m
    let (rns, st2) := renderAlternativeItems cfg st1 rest
    (rn :: rns, st2)

/-- renderer.go `renderMatch`: fragments rendered in order, spaced
horizontally with `HorizontalGap`, with a single connector path when
there are at least two. -/
def renderMatch (cfg : Config) (st : Int) : Match → RenderedNode × Int
  | .mk fs =>
    match fs with
    | [] => (⟨.group "" "" [], NewBoundingBox 0 0 0 0⟩, st)
    | l@(_ :: _) =>
      let (items, st') := renderFragmentItems cfg st l
      let (spacedItems, totalBBox) := SpaceHorizontally items cfg.HorizontalGap
      (assembleMatch cfg spacedItems totalBBox, st')

/-- The fragment-rendering loop of `renderMatch` (state threaded in
order). -/
def renderFragmentItems (cfg : Config) (st : Int) : List MatchFragment → List RenderedNode × Int
  | [] => ([], st)
  | f :: rest =>
    let (rn, st1) := renderMatchFragment cfg st f
    let (rns, st2) := renderFragmentItems cfg st1 rest
    (rn :: rns, st2)

/-- renderer.go `renderMatchFragment`: render the content, and wrap it
with `renderWithRepeat` when a quantifier is present. -/
def renderMatchFragment (cfg : Config) (st : Int) : MatchFragment → RenderedNode × Int
  | .mk content rep =>
    let (contentR, st') := renderNode cfg st content
    match rep with
    | none => (contentR, st')
    | some rp => (renderWithRepeat cfg contentR rp, st')

/-- renderer.go `renderNode`: the type switch over all handled node
kinds.  The group rules (`renderSubexp`, `renderBalancedGroup`,
`renderBranchReset`), `renderConditional` and `renderInlineModifier` are
inlined here (the named wrapper definitions below are definitionally
equal); the final arm is the `default` fallback, reached by the ast.go
`Node` implementations the switch does not list (`AtomicGroup`). -/
def renderNode (cfg : Config) (st : Int) : Node → RenderedNode × Int
  | .regexp r => renderRegexp cfg st r
  | .matchNode m => renderMatch cfg st m
  | .matchFragment mf => renderMatchFragment cfg st mf
  | .literal t => (renderQuotedLabel cfg t "literal", st)
  | .escape _ _ v => (renderLabel cfg v "escape", st)
  | .anchor a => (renderAnchor cfg a, st)
  | .anyCharacter => (renderLabel cfg "any character" "any-character", st)
  | .charset inv items => (renderCharset cfg inv items, st)
  | .subexp groupType number name rg =>
    let label := subexpLabel groupType number name
    let fill := subexpFillForDepth cfg st
    let (content, st1) := renderRegexp cfg (st + 1) rg
    (renderSubexpBox cfg label content fill, st1 - 1)
  | .backReference n nm => (renderBackReference cfg n nm, st)
  | .unicodePropertyEscape p neg => (renderUnicodePropertyEscape cfg p neg, st)
  | .quotedLiteral t => (renderQuotedLabel cfg t "literal", st)
  | .comment t => (renderComment cfg t, st)
  | .inlineModifier enable disable org =>
    let label :=
      if enable ≠ "" ∧ disable ≠ "" then "flags: +" ++ enable ++ " -" ++ disable
      else if enable ≠ "" then "flags: +" ++ enable
      else if disable ≠ "" then "flags: -" ++ disable
      else "flags"
    match org with
    | some rg =>
      let (content, st1) := renderRegexp cfg st rg
      (renderLabeledBoxWithContent cfg label content "flags", st1)
    | none => (renderLabel cfg label "flags", st)
  | .balancedGroup name otherName rg =>
    let label :=
      if name ≠ "" then "balanced group '" ++ name ++ "' (pop '" ++ otherName ++ "')"
      else "balance (pop '" ++ otherName ++ "')"
    let (content, st1) := renderRegexp cfg (st + 1) rg
    let st2 := st1 - 1
    let fill := subexpFillForDepth cfg st2
    (renderSubexpBox cfg label content fill, st2)
  | .conditional cond tm fm =>
    let condLabel := condLabelOf cond
    let (yesContent, st1) := renderRegexp cfg st tm
    let yesLabel := renderLabel cfg "then" "condition-label"
    let (yesSpaced, yesBBox) := SpaceHorizontally [yesLabel, yesContent] cfg.HorizontalGap
    match fm with
    | some fmr =>
      let (noContent, st2) := renderRegexp cfg st1 fmr
      let noLabel := renderLabel cfg "else" "condition-label"
      let (noSpaced, noBBox) := SpaceHorizontally [noLabel, noContent] cfg.HorizontalGap
      let verticalGap := cfg.VerticalGap
      let totalHeight := yesBBox.Height + verticalGap + noBBox.Height
      let totalWidth := max yesBBox.Width noBBox.Width
      let yesGroup : SVGElement := .group "condition-yes"
        ("translate(" ++ fmt2f ((totalWidth - yesBBox.Width) / 2) ++ ",0)")
        (yesSpaced.map (·.Element))
      let noGroup : SVGElement := .group "condition-no"
        ("translate(" ++ fmt2f ((totalWidth - noBBox.Width) / 2) ++ "," ++
          fmt2f (yesBBox.Height + verticalGap) ++ ")")
        (noSpaced.map (·.Element))
      let contentNode : RenderedNode :=
        ⟨.group "" "" [yesGroup, noGroup], NewBoundingBox 0 0 totalWidth totalHeight⟩
      (renderLabeledBoxWithContent cfg condLabel contentNode "conditional", st2)
    | none =>
      let totalWidth := yesBBox.Width
      let totalHeight := yesBBox.Height
      let yesGroup : SVGElement := .group "condition-yes" "" (yesSpaced.map (·.Element))
      let contentNode : RenderedNode :=
        ⟨.group "" "" [yesGroup], NewBoundingBox 0 0 totalWidth totalHeight⟩
      (renderLabeledBoxWithContent cfg condLabel contentNode "conditional", st1)
  | .recursiveRef t => (renderRecursiveRef cfg t, st)
  | .branchReset rg =>
    let (content, st1) := renderRegexp cfg (st + 1) rg
    let st2 := st1 - 1
    let fill := subexpFillForDepth cfg st2
    (renderSubexpBox cfg "branch reset" content fill, st2)
  | .backtrackControl v a => (renderBacktrackControl cfg v a, st)
  | .callout n t => (renderCallout cfg n t, st)
  | n@(.atomicGroup _) => (renderLabel cfg ("<" ++ nodeType n ++ ">") "unknown", st)
end

/-- renderer.go `renderSubexp` (depth read before the increment; the
nested regexp rendered between increment and decrement). Definitionally
the `.subexp` arm of `renderNode`. -/
def renderSubexp (cfg : Config) (st : Int) (groupType : String) (number : Int) (name : String)
    (rg : Regexp) : RenderedNode × Int :=
  let label := subexpLabel groupType number name
  let fill := subexpFillForDepth cfg st
  let (content, st1) := renderRegexp cfg (st + 1) rg
  (renderSubexpBox cfg label content fill, st1 - 1)

/-- renderer.go `renderBalancedGroup` (depth read after the decrement).
Definitionally the `.balancedGroup` arm of `renderNode`. -/
def renderBalancedGroup (cfg : Config) (st : Int) (name otherName : String) (rg : Regexp) :
    RenderedNode × Int :=
  let label :=
    if name ≠ "" then "balanced group '" ++ name ++ "' (pop '" ++ otherName ++ "')"
    else "balance (pop '" ++ otherName ++ "')"
  let (content, st1) := renderRegexp cfg (st + 1) rg
  let st2 := st1 - 1
  let fill := subexpFillForDepth cfg st2
  (renderSubexpBox cfg label content fill, st2)

/-- renderer.go `renderBranchReset` (depth read after the decrement).
Definitionally the `.branchReset` arm of `renderNode`. -/
def renderBranchReset (cfg : Config) (st : Int) (rg : Regexp) : RenderedNode × Int :=
  let (content, st1) := renderRegexp cfg (st + 1) rg
  let st2 := st1 - 1
  let fill := subexpFillForDepth cfg st2
  (renderSubexpBox cfg "branch reset" content fill, st2)

theorem renderNode_subexp_def (cfg : Config) (st : Int) (gt : String) (n : Int) (nm : String)
    (rg : Regexp) :
    renderNode cfg st (.subexp gt n nm rg) = renderSubexp cfg st gt n nm rg := by
  simp only [renderNode, renderSubexp]

theorem renderNode_balancedGroup_def (cfg : Config) (st : Int) (nm onm : String) (rg : Regexp) :
    renderNode cfg st (.balancedGroup nm onm rg) = renderBalancedGroup cfg st nm onm rg := by
  simp only [renderNode, renderBalancedGroup]

theorem renderNode_branchReset_def (cfg : Config) (st : Int) (rg : Regexp) :
    renderNode cfg st (.branchReset rg) = renderBranchReset cfg st rg := by
  simp only [renderNode, renderBranchReset]

/-- renderer.go `Render`, up to the final `svg.Render()` call:
top-level composition (padding, optional flags box on the right,
optional pattern-options banner above, start/end connector lines,
embedded styles) producing the root `SVG` element.  Returns the element
and the final depth-counter value. -/
def RenderSvg (cfg : Config) (st : Int) (ast : Regexp) : SVGElement × Int :=
  let (rendered, st') := renderRegexp cfg st ast
  let padding := cfg.Padding
  let width := rendered.BBox.Width + 2 * padding
  let height := rendered.BBox.Height + 2 * padding
  let flagsOpt : Option RenderedNode :=
    if ast.Flags != "" then some (renderFlags cfg ast.Flags) else none
  let flagsWidth : ℚ := match flagsOpt with
    | some fr => fr.BBox.Width + padding
    | none => 0
  let width := width + flagsWidth
  let height := match flagsOpt with
    | some fr => if fr.BBox.Height + 2 * padding > height then fr.BBox.Height + 2 * padding
        else height
    | none => height
  let bannerOpt : Option RenderedNode :=
    if ast.Options.length > 0 then some (renderPatternOptions cfg ast.Options) else none
  let bannerHeight : ℚ := match bannerOpt with
    | some br => br.BBox.Height + padding / 2
    | none => 0
  let width := match bannerOpt with
    | some br => if br.BBox.Width + 2 * padding > width then br.BBox.Width + 2 * padding
        else width
    | none => width
  let height := height + bannerHeight
  let startX := padding / 2
  let endX := width - padding / 2
  let anchorY := bannerHeight + padding + rendered.BBox.AnchorY
  let startLine : SVGElement := .line startX anchorY padding anchorY cfg.LineColor cfg.LineWidth ""
  let endLine : SVGElement := .line (width - padding - flagsWidth) anchorY (endX - flagsWidth)
    anchorY cfg.LineColor cfg.LineWidth ""
  let contentGroup : SVGElement :=
    .group "" ("translate(" ++ fmtG padding ++ "," ++ fmtG (bannerHeight + padding) ++ ")")
      [rendered.Element]
  let children := [startLine, endLine, contentGroup]
  let children := children ++ (match bannerOpt with
    | some br =>
      [SVGElement.group "" ("translate(" ++ fmtG padding ++ "," ++ fmtG (padding / 2) ++ ")")
        [br.Element]]
    | none => [])
  let children := children ++ (match flagsOpt with
    | some fr =>
      [SVGElement.group ""
        ("translate(" ++ fmtG (width - padding - flagsWidth + padding / 2) ++ "," ++
          fmtG (bannerHeight + padding) ++ ")")
        [fr.Element]]
    | none => [])
  let svg : SVGElement := .svg width height ("0 0 " ++ fmtG width ++ " " ++ fmtG height)
    (getStyles cfg) children
  (svg, st')

/-- renderer.go `Render`: the markup of the composed root element. -/
def Render (cfg : Config) (st : Int) (ast : Regexp) : String × Int :=
  let (svg, st') := RenderSvg cfg st ast
  (renderElem svg, st')

/-- Depth preservation (push/pop discipline), proved by mutual induction
over the rendering functions: every rendering call returns the depth
counter to its pre-call value. -/
theorem renderDepthAll (cfg : Config) :
    (∀ (st : Int) (r : Regexp), (renderRegexp cfg st r).2 = st) ∧
    (∀ (st : Int) (ms : List Match), (renderAlternativeItems cfg st ms).2 = st) ∧
    (∀ (st : Int) (m : Match), (renderMatch cfg st m).2 = st) ∧
    (∀ (st : Int) (fs : List MatchFragment), (renderFragmentItems cfg st fs).2 = st) ∧
    (∀ (st : Int) (mf : MatchFragment), (renderMatchFragment cfg st mf).2 = st) ∧
    (∀ (st : Int) (n : Node), (renderNode cfg st n).2 = st) := by
  refine renderRegexp.mutual_induct cfg
    (fun st r => (renderRegexp cfg st r).2 = st)
    (fun st ms => (renderAlternativeItems cfg st ms).2 = st)
    (fun st m => (renderMatch cfg st m).2 = st)
    (fun st fs => (renderFragmentItems cfg st fs).2 = st)
    (fun st mf => (renderMatchFragment cfg st mf).2 = st)
    (fun st n => (renderNode cfg st n).2 = st)
    ?_ ?_ ?_ ?_ ?_ ?_ ?_ ?_ ?_ ?_ ?_ ?_ ?_ ?_ ?_ ?_ ?_
    ?_ ?_ ?_ ?_ ?_ ?_ ?_ ?_ ?_ ?_ ?_ ?_ ?_ ?_ ?_ ?_ ?_
  all_goals intros
  all_goals try (simp_all only [renderRegexp, renderAlternativeItems, renderMatch,
      renderFragmentItems, renderMatchFragment, renderNode])
  all_goals try omega

/-- Depth preservation for `renderRegexp`. -/
theorem renderRegexp_depth (cfg : Config) (st : Int) (r : Regexp) :
    (renderRegexp cfg st r).2 = st :=
  (renderDepthAll cfg).1 st r

/-- Depth preservation for `renderNode`. -/
theorem renderNode_depth (cfg : Config) (st : Int) (n : Node) :
    (renderNode cfg st n).2 = st :=
  (renderDepthAll cfg).2.2.2.2.2 st n

/-- Depth preservation for the top-level `RenderSvg`. -/
theorem RenderSvg_depth (cfg : Config) (st : Int) (ast : Regexp) :
    (RenderSvg cfg st ast).2 = st := by
  have h := renderRegexp_depth cfg st ast
  rcases heq : renderRegexp cfg st ast with ⟨rn, st'⟩
  rw [heq] at h
  simp only [RenderSvg, heq]
  exact h

/-- Depth preservation for the top-level `Render`. -/
theorem Render_depth (cfg : Config) (st : Int) (ast : Regexp) :
    (Render cfg st ast).2 = st := by
  have h := RenderSvg_depth cfg st ast
  rcases heq : RenderSvg cfg st ast with ⟨e, st'⟩
  rw [heq] at h
  simp only [Render, heq]
  exact h

/-- Children of a group (or root svg) element; other elements have
none. -/
def elementChildren : SVGElement → List SVGElement
  | .group _ _ cs => cs
  | .svg _ _ _ _ cs => cs
  | _ => []

/-- Is this element a path with the given class? -/
def isPathWithClass (c : String) : SVGElement → Bool
  | .path _ _ _ _ cls => cls == c
  | _ => false

/-- Does the rendered node's element directly contain a path child with
the given class? -/
def hasPathWithClass (c : String) (rn : RenderedNode) : Bool :=
  (elementChildren rn.Element).any (isPathWithClass c)

/-- Is this element a centered `repeat-label` text with the given
content? -/
def isRepeatLabelText (s : String) : SVGElement → Bool
  | .text _ _ content _ _ _ anchor cls _ =>
    content == s && anchor == "middle" && cls == "repeat-label"
  | _ => false

/-- Does the rendered node's element directly contain a centered
`repeat-label` text with the given content? -/
def hasRepeatLabelText (s : String) (rn : RenderedNode) : Bool :=
  (elementChildren rn.Element).any (isRepeatLabelText s)


/-- A string with a non-empty second component is non-empty. -/
theorem strAppend_ne_empty (a b : String) (hb : b.length ≠ 0) : a ++ b ≠ "" := by
  intro h
  have h2 := congrArg String.length h
  rw [String.length_append] at h2
  simp at h2
  omega

set_option maxHeartbeats 1000000 in
/-- C1 -/
theorem renderWithRepeat_shape (cfg : Config) (content : RenderedNode) (rep : Repeat) :
    (hasPathWithClass "skip-path" (renderWithRepeat cfg content rep) = true ↔ rep.Min = 0) ∧
    (hasPathWithClass "loop-path" (renderWithRepeat cfg content rep) = true ↔ rep.Max ≠ 1) ∧
    (rep.Max ≠ 1 → getRepeatLabel rep ≠ "" →
      hasRepeatLabelText (getRepeatLabel rep) (renderWithRepeat cfg content rep) = true) ∧
    (rep.Min = rep.Max → rep.Min ≠ 1 →
      getRepeatLabel rep =
        toString rep.Min ++ " times" ++ (if rep.Possessive then " (possessive)" else "")) ∧
    (rep.Max = -1 → 2 ≤ rep.Min →
      getRepeatLabel rep =
        toString rep.Min ++ "+ times" ++ (if rep.Possessive then " (possessive)" else "")) ∧
    (rep.Min ≠ rep.Max → rep.Max ≠ -1 →
      getRepeatLabel rep =
        toString rep.Min ++ " to " ++ toString rep.Max ++ " times" ++
          (if rep.Possessive then " (possessive)" else "")) ∧
    (rep.Max = -1 → (rep.Min = 0 ∨ rep.Min = 1) → rep.Possessive = true →
      getRepeatLabel rep = "possessive") := by
  obtain ⟨mi, ma, gr, po⟩ := rep
  dsimp only
  refine ⟨?_, ?_, ?_, ?_, ?_, ?_, ?_⟩
  · simp only [renderWithRepeat, hasPathWithClass, elementChildren]
    split_ifs <;>
      simp_all only [List.any_append, List.any_cons, List.any_nil, isPathWithClass,
        Bool.or_eq_true, Bool.and_eq_true, beq_iff_eq, List.any_eq_true] <;>
      simp_all
  · simp only [renderWithRepeat, hasPathWithClass, elementChildren]
    split_ifs <;>
      simp_all only [List.any_append, List.any_cons, List.any_nil, isPathWithClass,
        Bool.or_eq_true, Bool.and_eq_true, beq_iff_eq, List.any_eq_true] <;>
      simp_all
  · intro hma hlab
    simp only [renderWithRepeat, hasRepeatLabelText, elementChildren]
    split_ifs <;>
      simp_all only [List.any_append, List.any_cons, List.any_nil, isRepeatLabelText,
        Bool.or_eq_true, Bool.and_eq_true, beq_iff_eq, List.any_eq_true] <;>
      simp_all
  · intro h1 h2
    subst h1
    have hne := strAppend_ne_empty (toString mi) " times" (by decide)
    simp only [getRepeatLabel, if_pos rfl, if_neg h2]
    cases po <;> simp_all
  · intro h1 h2
    subst h1
    have hne := strAppend_ne_empty (toString mi) "+ times" (by decide)
    have hmm : ¬ mi = -1 := by omega
    have h0 : ¬ mi = 0 := by omega
    have hone : ¬ mi = 1 := by omega
    simp only [getRepeatLabel, if_pos rfl, if_neg hmm, if_neg h0, if_neg hone]
    cases po <;> simp_all
  · intro h1 h2
    have hne := strAppend_ne_empty (toString mi ++ " to " ++ toString ma) " times" (by decide)
    simp only [getRepeatLabel, if_neg h1, if_neg h2]
    cases po <;> simp_all [String.append_assoc]
  · intro h1 h2 h3
    subst h1 h3
    rcases h2 with h | h <;> subst h <;> simp [getRepeatLabel]

/-- The fill of a rendered titled box: the `Fill` field of the leading
background rect of its group. -/
def boxFill (rn : RenderedNode) : Option String :=
  match rn.Element with
  | .group _ _ (.rect _ _ _ _ _ _ fill _ _ _ :: _) => some fill
  | _ => none

theorem boxFill_subexpBox (cfg : Config) (label : String) (content : RenderedNode)
    (fill : String) : boxFill (renderSubexpBox cfg label content fill) = some fill := by
  simp only [renderSubexpBox, boxFill]

set_option maxHeartbeats 1000000 in
/-- C2 -/
theorem groupFill_byDepth (cfg : Config) (d : Int) (hd : 0 ≤ d) (gt : String) (num : Int)
    (nm onm : String) (rg : Regexp) :
    ((d = 0 →
        boxFill (renderSubexp cfg d gt num nm rg).1 = some cfg.SubexpFill ∧
        boxFill (renderBranchReset cfg d rg).1 = some cfg.SubexpFill ∧
        boxFill (renderBalancedGroup cfg d nm onm rg).1 = some cfg.SubexpFill)) ∧
    ((1 ≤ d → cfg.SubexpColors ≠ [] →
        boxFill (renderSubexp cfg d gt num nm rg).1 =
          some (cfg.SubexpColors.getD ((d - 1).toNat % cfg.SubexpColors.length) "") ∧
        boxFill (renderBranchReset cfg d rg).1 =
          some (cfg.SubexpColors.getD ((d - 1).toNat % cfg.SubexpColors.length) "") ∧
        boxFill (renderBalancedGroup cfg d nm onm rg).1 =
          some (cfg.SubexpColors.getD ((d - 1).toNat % cfg.SubexpColors.length) ""))) ∧
    ((cfg.SubexpColors = [] →
        boxFill (renderSubexp cfg d gt num nm rg).1 = some cfg.SubexpFill ∧
        boxFill (renderBranchReset cfg d rg).1 = some cfg.SubexpFill ∧
        boxFill (renderBalancedGroup cfg d nm onm rg).1 = some cfg.SubexpFill)) := by
  have hdep := renderRegexp_depth cfg (d + 1) rg
  rcases heq : renderRegexp cfg (d + 1) rg with ⟨c, st1⟩
  rw [heq] at hdep
  dsimp at hdep
  have hfill : ∀ l f, boxFill (renderSubexpBox cfg l c f) = some f := fun l f =>
    boxFill_subexpBox cfg l c f
  have hsub : (renderSubexp cfg d gt num nm rg).1 =
      renderSubexpBox cfg (subexpLabel gt num nm) c (subexpFillForDepth cfg d) := by
    simp only [renderSubexp, heq]
  have hbr : (renderBranchReset cfg d rg).1 =
      renderSubexpBox cfg "branch reset" c (subexpFillForDepth cfg (st1 - 1)) := by
    simp only [renderBranchReset, heq]
  have hbg : (renderBalancedGroup cfg d nm onm rg).1 =
      renderSubexpBox cfg
        (if nm ≠ "" then "balanced group '" ++ nm ++ "' (pop '" ++ onm ++ "')"
         else "balance (pop '" ++ onm ++ "')") c (subexpFillForDepth cfg (st1 - 1)) := by
    simp only [renderBalancedGroup, heq]
  have hst : st1 - 1 = d := by omega
  rw [hst] at hbr hbg
  refine ⟨?_, ?_, ?_⟩
  · intro h0
    subst h0
    simp only [hsub, hbr, hbg, hfill, subexpFillForDepth, if_pos rfl]
    simp
  · intro h1 hne
    have hlen : 0 < cfg.SubexpColors.length := List.length_pos.mpr hne
    have hd0 : ¬ d = 0 := by omega
    have htm : (Int.tmod (d - 1) (cfg.SubexpColors.length : Int)).toNat =
        (d - 1).toNat % cfg.SubexpColors.length := by
      rw [Int.tmod_eq_emod (by omega) (by omega)]
      have hk : (d - 1) = ((d - 1).toNat : ℤ) := by omega
      rw [hk, ← Int.natCast_mod]
      simp only [Int.toNat_natCast]
    simp only [hsub, hbr, hbg, hfill, subexpFillForDepth, if_neg hd0, if_pos hlen, htm]
    simp
  · intro hnil
    by_cases h0 : d = 0
    · subst h0
      simp only [hsub, hbr, hbg, hfill, subexpFillForDepth, if_pos rfl]
      simp
    · have : ¬ 0 < cfg.SubexpColors.length := by simp [hnil]
      simp only [hsub, hbr, hbg, hfill, subexpFillForDepth, if_neg h0, if_neg this]
      simp

theorem groupFill_byDepth_witness :
    boxFill (renderSubexp DefaultConfig 1 "capture" 1 "" (Regexp.mk [] "" [])).1 =
      some "#cce5ff" := by
  have h := ((groupFill_byDepth DefaultConfig 1 (by decide) "capture" 1 "" ""
    (Regexp.mk [] "" [])).2.1 (by decide) (by decide)).1
  simpa [DefaultConfig] using h

theorem renderWithRepeat_shape_witness :
    hasPathWithClass "skip-path"
      (renderWithRepeat DefaultConfig junkNode ⟨0, -1, true, false⟩) = true ∧
    getRepeatLabel ⟨3, 3, true, false⟩ = "3 times" := by
  constructor
  · exact (renderWithRepeat_shape DefaultConfig junkNode ⟨0, -1, true, false⟩).1.mpr rfl
  · have h := (renderWithRepeat_shape DefaultConfig junkNode ⟨3, 3, true, false⟩).2.2.2.1
      rfl (by decide)
    simpa using h

/-- Every rendered svg.go element is markup: its `Render` output starts
with the character `<`. -/
theorem renderElem_head (e : SVGElement) : (renderElem e).data.head? = some '<' := by
  cases e <;> rfl

/-- C3 -/
theorem subexpDepth_restored :
    (∀ (cfg : Config) (st : Int) (n : Node), (renderNode cfg st n).2 = st) ∧
    (∀ (cfg : Config) (st : Int) (ast : Regexp), (Render cfg st ast).2 = st) :=
  ⟨fun cfg st n => renderNode_depth cfg st n, fun cfg st ast => Render_depth cfg st ast⟩

/-- C4 -/
theorem Render_deterministic :
    (∀ (cfg cfg' : Config) (st st' : Int) (ast ast' : Regexp),
      cfg = cfg' → st = st' → ast = ast' → Render cfg st ast = Render cfg' st' ast') ∧
    (∀ (cfg : Config) (st : Int) (ast : Regexp),
      (Render cfg ((Render cfg st ast).2) ast).1 = (Render cfg st ast).1) := by
  constructor
  · rintro cfg cfg' st st' ast ast' rfl rfl rfl
    rfl
  · intro cfg st ast
    rw [Render_depth]

theorem Render_deterministic_witness :
    Render DefaultConfig 0 (Regexp.mk [] "" []) = Render DefaultConfig 0 (Regexp.mk [] "" []) :=
  Render_deterministic.1 DefaultConfig DefaultConfig 0 0 (Regexp.mk [] "" [])
    (Regexp.mk [] "" []) rfl rfl rfl

/-- C5 -/
theorem renderNode_total (cfg : Config) (st : Int) :
    (∀ n : Node, (renderElem (renderNode cfg st n).1.Element).data.head? = some '<') ∧
    (∀ rg : Regexp,
      renderNode cfg st (.atomicGroup rg) =
        (renderLabel cfg ("<" ++ nodeType (.atomicGroup rg) ++ ">") "unknown", st)) := by
  constructor
  · intro n
    exact renderElem_head _
  · intro rg
    simp only [renderNode, nodeType]

/-- The `Width` field of a root svg element. -/
def svgWidth : SVGElement → ℚ
  | .svg w _ _ _ _ => w
  | _ => 0

set_option maxHeartbeats 1000000 in
/-- C10 -/
theorem renderFlags_behavior :
    (flagDesc 'd' = some "hasIndices" ∧ flagDesc 'g' = some "global" ∧
     flagDesc 'i' = some "ignore case" ∧ flagDesc 'm' = some "multiline" ∧
     flagDesc 's' = some "dotAll" ∧ flagDesc 'u' = some "unicode" ∧
     flagDesc 'y' = some "sticky") ∧
    (∀ c : Char, c ∉ (['d', 'g', 'i', 'm', 's', 'u', 'y'] : List Char) → flagDesc c = none) ∧
    (∀ (cfg : Config) (st : Int) (ast : Regexp), ast.Flags ≠ "" → ast.Options = [] →
      svgWidth (RenderSvg cfg st ast).1 =
        (renderRegexp cfg st ast).1.BBox.Width + 2 * cfg.Padding +
          ((renderFlags cfg ast.Flags).BBox.Width + cfg.Padding) ∧
      ∃ tf : String,
        (elementChildren (RenderSvg cfg st ast).1).getLast? =
          some (.group "" tf [(renderFlags cfg ast.Flags).Element])) := by
  refine ⟨⟨rfl, rfl, rfl, rfl, rfl, rfl, rfl⟩, ?_, ?_⟩
  · intro c h
    simp only [flagDesc]
    split_ifs <;> simp_all
  · intro cfg st ast hflags hopts
    rcases heq : renderRegexp cfg st ast with ⟨rendered, st'⟩
    have hb : (ast.Flags != "") = true := by simpa using hflags
    have hob : ¬ (ast.Options.length > 0) := by simp [hopts]
    simp only [RenderSvg, heq, hb, hob, if_true, if_false, reduceIte, svgWidth,
      elementChildren]
    constructor
    · ring_nf
    · rw [List.getLast?_concat]
      exact ⟨_, rfl⟩

theorem maxAnchorYLoop_le (items : List RenderedNode) :
    ∀ acc : ℚ, acc ≤ maxAnchorYLoop acc items ∧
      ∀ it ∈ items, it.BBox.AnchorY ≤ maxAnchorYLoop acc items := by
  induction items with
  | nil => intro acc; simp [maxAnchorYLoop]
  | cons it rest ih =>
    intro acc
    simp only [maxAnchorYLoop]
    by_cases hc : it.BBox.AnchorY > acc
    · rw [if_pos hc]
      rcases ih it.BBox.AnchorY with ⟨h1, h2⟩
      refine ⟨by linarith, ?_⟩
      intro x hx
      rcases List.mem_cons.mp hx with h | h
      · subst h
        linarith
      · exact h2 x h
    · rw [if_neg hc]
      rcases ih acc with ⟨h1, h2⟩
      refine ⟨h1, ?_⟩
      intro x hx
      rcases List.mem_cons.mp hx with h | h
      · subst h
        push_neg at hc
        linarith
      · exact h2 x h

theorem maxAnchorYLoop_mem (items : List RenderedNode) :
    ∀ acc : ℚ, maxAnchorYLoop acc items = acc ∨
      ∃ it ∈ items, maxAnchorYLoop acc items = it.BBox.AnchorY := by
  induction items with
  | nil => intro acc; simp [maxAnchorYLoop]
  | cons it rest ih =>
    intro acc
    simp only [maxAnchorYLoop]
    rcases ih (if it.BBox.AnchorY > acc then it.BBox.AnchorY else acc) with h | ⟨x, hx, h⟩
    · rw [h]
      split_ifs with hc
      · exact Or.inr ⟨it, List.mem_cons_self it rest, rfl⟩
      · exact Or.inl rfl
    · exact Or.inr ⟨x, List.mem_cons_of_mem it hx, h⟩

theorem maxAnchorYLoop_le_bound (items : List RenderedNode) (B : ℚ)
    (hB : ∀ it ∈ items, it.BBox.AnchorY ≤ B) :
    ∀ acc : ℚ, acc ≤ B → maxAnchorYLoop acc items ≤ B := by
  induction items with
  | nil => intro acc h; simpa [maxAnchorYLoop] using h
  | cons it rest ih =>
    intro acc hacc
    simp only [maxAnchorYLoop]
    have hit := hB it (List.mem_cons_self it rest)
    refine ih (fun x hx => hB x (List.mem_cons_of_mem it hx)) _ ?_
    split_ifs <;> linarith

theorem Translate_fields (b : BoundingBox) (dx dy : ℚ) :
    (b.Translate dx dy).X = b.X + dx ∧ (b.Translate dx dy).Y = b.Y + dy ∧
    (b.Translate dx dy).Width = b.Width ∧ (b.Translate dx dy).Height = b.Height ∧
    (b.Translate dx dy).AnchorLeft = b.AnchorLeft + dx ∧
    (b.Translate dx dy).AnchorRight = b.AnchorRight + dx ∧
    (b.Translate dx dy).AnchorY = b.AnchorY + dy := by
  simp [BoundingBox.Translate]

theorem spaceHLoop_core (padding M : ℚ) :
    ∀ (items : List RenderedNode) (x minY maxY : ℚ),
      ((spaceHLoop padding M x minY maxY items).1.length = items.length) ∧
      (∀ r ∈ (spaceHLoop padding M x minY maxY items).1, r.BBox.AnchorY = M) ∧
      (∀ it ∈ items, ∃ r ∈ (spaceHLoop padding M x minY maxY items).1,
        r.BBox.Y = it.BBox.Y + (M - it.BBox.AnchorY) ∧
        r.BBox.Y2 = it.BBox.Y2 + (M - it.BBox.AnchorY)) ∧
      (∀ r ∈ (spaceHLoop padding M x minY maxY items).1, ∃ it ∈ items,
        r.BBox.Y = it.BBox.Y + (M - it.BBox.AnchorY) ∧
        r.BBox.Y2 = it.BBox.Y2 + (M - it.BBox.AnchorY)) := by
  intro items
  induction items with
  | nil =>
    intro x minY maxY
    simp [spaceHLoop]
  | cons it rest ih =>
    intro x minY maxY
    simp only [spaceHLoop]
    set nb := it.BBox.Translate (x - it.BBox.X) (M - it.BBox.AnchorY) with hnb
    rcases heq : spaceHLoop padding M (nb.X2 + padding)
        (if nb.Y < minY then nb.Y else minY)
        (if nb.Y2 > maxY then nb.Y2 else maxY) rest with ⟨rs, xf, minf, maxf⟩
    rcases ih (nb.X2 + padding) (if nb.Y < minY then nb.Y else minY)
        (if nb.Y2 > maxY then nb.Y2 else maxY) with ⟨ihlen, ihanch, ihfwd, ihbwd⟩
    rw [heq] at ihlen ihanch ihfwd ihbwd
    simp only [heq]
    have hnbY : nb.Y = it.BBox.Y + (M - it.BBox.AnchorY) := by
      simp [hnb, BoundingBox.Translate]
    have hnbY2 : nb.Y2 = it.BBox.Y2 + (M - it.BBox.AnchorY) := by
      simp [hnb, BoundingBox.Translate, BoundingBox.Y2]
      ring
    have hnbA : nb.AnchorY = M := by
      simp [hnb, BoundingBox.Translate]
    refine ⟨by simpa using ihlen, ?_, ?_, ?_⟩
    · intro r hr
      rcases List.mem_cons.mp hr with h | h
      · subst h
        exact hnbA
      · exact ihanch r h
    · intro x2 hx2
      rcases List.mem_cons.mp hx2 with h | h
      · subst h
        exact ⟨_, List.mem_cons_self _ _, hnbY, hnbY2⟩
      · rcases ihfwd x2 h with ⟨r, hrmem, hry, hry2⟩
        exact ⟨r, List.mem_cons_of_mem _ hrmem, hry, hry2⟩
    · intro r hr
      rcases List.mem_cons.mp hr with h | h
      · subst h
        exact ⟨it, List.mem_cons_self _ _, hnbY, hnbY2⟩
      · rcases ihbwd r h with ⟨x2, hmem, hy, hy2⟩
        exact ⟨x2, List.mem_cons_of_mem _ hmem, hy, hy2⟩

theorem spaceHLoop_minY (padding M : ℚ) :
    ∀ (items : List RenderedNode) (x minY maxY : ℚ),
      ((spaceHLoop padding M x minY maxY items).2.2.1 ≤ minY) ∧
      (∀ r ∈ (spaceHLoop padding M x minY maxY items).1,
        (spaceHLoop padding M x minY maxY items).2.2.1 ≤ r.BBox.Y) ∧
      ((spaceHLoop padding M x minY maxY items).2.2.1 = minY ∨
        ∃ r ∈ (spaceHLoop padding M x minY maxY items).1,
          (spaceHLoop padding M x minY maxY items).2.2.1 = r.BBox.Y) := by
  intro items
  induction items with
  | nil =>
    intro x minY maxY
    simp [spaceHLoop]
  | cons it rest ih =>
    intro x minY maxY
    simp only [spaceHLoop]
    set nb := it.BBox.Translate (x - it.BBox.X) (M - it.BBox.AnchorY) with hnb
    rcases heq : spaceHLoop padding M (nb.X2 + padding)
        (if nb.Y < minY then nb.Y else minY)
        (if nb.Y2 > maxY then nb.Y2 else maxY) rest with ⟨rs, xf, minf, maxf⟩
    rcases ih (nb.X2 + padding) (if nb.Y < minY then nb.Y else minY)
        (if nb.Y2 > maxY then nb.Y2 else maxY) with ⟨ihle, ihall, ihmem⟩
    rw [heq] at ihle ihall ihmem
    simp only [heq]
    dsimp only at ihle ihall ihmem ⊢
    have hminle : (if nb.Y < minY then nb.Y else minY) ≤ minY := by
      split_ifs with h <;> linarith
    have hminnb : (if nb.Y < minY then nb.Y else minY) ≤ nb.Y := by
      split_ifs with h <;> linarith
    refine ⟨by linarith, ?_, ?_⟩
    · intro r hr
      rcases List.mem_cons.mp hr with h | h
      · subst h
        linarith
      · exact ihall r h
    · rcases ihmem with h | ⟨r, hmem, heq2⟩
      · rw [h]
        by_cases hc : nb.Y < minY
        · rw [if_pos hc]
          exact Or.inr ⟨_, List.mem_cons_self _ _, rfl⟩
        · rw [if_neg hc]
          exact Or.inl rfl
      · exact Or.inr ⟨r, List.mem_cons_of_mem _ hmem, heq2⟩

theorem spaceHLoop_maxY (padding M : ℚ) :
    ∀ (items : List RenderedNode) (x minY maxY : ℚ),
      (maxY ≤ (spaceHLoop padding M x minY maxY items).2.2.2) ∧
      (∀ r ∈ (spaceHLoop padding M x minY maxY items).1,
        r.BBox.Y2 ≤ (spaceHLoop padding M x minY maxY items).2.2.2) ∧
      ((spaceHLoop padding M x minY maxY items).2.2.2 = maxY ∨
        ∃ r ∈ (spaceHLoop padding M x minY maxY items).1,
          (spaceHLoop padding M x minY maxY items).2.2.2 = r.BBox.Y2) := by
  intro items
  induction items with
  | nil =>
    intro x minY maxY
    simp [spaceHLoop]
  | cons it rest ih =>
    intro x minY maxY
    simp only [spaceHLoop]
    set nb := it.BBox.Translate (x - it.BBox.X) (M - it.BBox.AnchorY) with hnb
    rcases heq : spaceHLoop padding M (nb.X2 + padding)
        (if nb.Y < minY then nb.Y else minY)
        (if nb.Y2 > maxY then nb.Y2 else maxY) rest with ⟨rs, xf, minf, maxf⟩
    rcases ih (nb.X2 + padding) (if nb.Y < minY then nb.Y else minY)
        (if nb.Y2 > maxY then nb.Y2 else maxY) with ⟨ihge, ihall, ihmem⟩
    rw [heq] at ihge ihall ihmem
    simp only [heq]
    dsimp only at ihge ihall ihmem ⊢
    have hmaxge : maxY ≤ (if nb.Y2 > maxY then nb.Y2 else maxY) := by
      split_ifs with h <;> linarith
    have hmaxnb : nb.Y2 ≤ (if nb.Y2 > maxY then nb.Y2 else maxY) := by
      split_ifs with h <;> linarith
    refine ⟨by linarith, ?_, ?_⟩
    · intro r hr
      rcases List.mem_cons.mp hr with h | h
      · subst h
        linarith
      · exact ihall r h
    · rcases ihmem with h | ⟨r, hmem, heq2⟩
      · rw [h]
        by_cases hc : nb.Y2 > maxY
        · rw [if_pos hc]
          exact Or.inr ⟨_, List.mem_cons_self _ _, rfl⟩
        · rw [if_neg hc]
          exact Or.inl rfl
      · exact Or.inr ⟨r, List.mem_cons_of_mem _ hmem, heq2⟩

theorem getD_zero_headD (l : List RenderedNode) (d : RenderedNode) :
    l.getD 0 d = l.headD d := by
  cases l <;> rfl

theorem spaceHLoop_X (padding M : ℚ) :
    ∀ (items : List RenderedNode) (x minY maxY : ℚ),
      (items ≠ [] →
        ((spaceHLoop padding M x minY maxY items).1.headD junkNode).BBox.X = x) ∧
      (∀ i : ℕ, i + 1 < (spaceHLoop padding M x minY maxY items).1.length →
        ((spaceHLoop padding M x minY maxY items).1.getD (i + 1) junkNode).BBox.X =
          ((spaceHLoop padding M x minY maxY items).1.getD i junkNode).BBox.X2 + padding) := by
  intro items
  induction items with
  | nil =>
    intro x minY maxY
    refine ⟨fun h => absurd rfl h, ?_⟩
    intro i hi
    simp [spaceHLoop] at hi
  | cons it rest ih =>
    intro x minY maxY
    simp only [spaceHLoop]
    set nb := it.BBox.Translate (x - it.BBox.X) (M - it.BBox.AnchorY) with hnb
    rcases heq : spaceHLoop padding M (nb.X2 + padding)
        (if nb.Y < minY then nb.Y else minY)
        (if nb.Y2 > maxY then nb.Y2 else maxY) rest with ⟨rs, xf, minf, maxf⟩
    rcases ih (nb.X2 + padding) (if nb.Y < minY then nb.Y else minY)
        (if nb.Y2 > maxY then nb.Y2 else maxY) with ⟨ihhead, ihchain⟩
    rw [heq] at ihhead ihchain
    simp only [heq]
    dsimp only at ihhead ihchain ⊢
    have hnbX : nb.X = x := by
      simp [hnb, BoundingBox.Translate]
    refine ⟨fun _ => hnbX, ?_⟩
    intro i hi
    simp only [List.length_cons] at hi
    match i with
    | 0 =>
      simp only [List.getD_cons_succ, List.getD_cons_zero]
      rw [getD_zero_headD]
      have hlen := (spaceHLoop_core padding M rest (nb.X2 + padding)
        (if nb.Y < minY then nb.Y else minY) (if nb.Y2 > maxY then nb.Y2 else maxY)).1
      rw [heq] at hlen
      have hrest : rest ≠ [] := by
        intro h
        subst h
        simp at hlen
        rw [hlen] at hi
        simp at hi
      exact ihhead hrest
    | Nat.succ j =>
      simp only [List.getD_cons_succ]
      exact ihchain j (by omega)

theorem maxFloat64_ge_one : (1 : ℚ) ≤ maxFloat64 := by
  norm_num [maxFloat64]

theorem maxFloat64_nonneg : (0 : ℚ) ≤ maxFloat64 :=
  le_trans (by norm_num) maxFloat64_ge_one

theorem headD_mem (l : List RenderedNode) (d : RenderedNode) (h : l ≠ []) :
    l.headD d ∈ l := by
  cases l with
  | nil => exact absurd rfl h
  | cons a rest => exact List.mem_cons_self a rest

set_option maxHeartbeats 1000000 in
/-- C8 (amended): on a non-empty list of items whose boxes satisfy the
renderer invariants (`Y ≤ AnchorY ≤ Y2`, `0 ≤ AnchorY ≤ MaxFloat64`),
`SpaceHorizontally` aligns every translated item on the shared anchor
line `maxAnchorY` (the maximum of the items' anchors), accumulates X
offsets as running width plus gap, and returns the aggregate box with
the claimed anchors and the vertical union extent; empty input yields
the zero box. -/
theorem SpaceHorizontally_spec (items : List RenderedNode) (gap : ℚ)
    (hne : items ≠ [])
    (hgood : ∀ it ∈ items, it.BBox.Y ≤ it.BBox.AnchorY ∧ it.BBox.AnchorY ≤ it.BBox.Y2 ∧
      0 ≤ it.BBox.AnchorY ∧ it.BBox.AnchorY ≤ maxFloat64) :
    ((∀ it ∈ items, it.BBox.AnchorY ≤ (SpaceHorizontally items gap).2.AnchorY) ∧
      (∃ it ∈ items, (SpaceHorizontally items gap).2.AnchorY = it.BBox.AnchorY)) ∧
    (∀ r ∈ (SpaceHorizontally items gap).1,
      r.BBox.AnchorY = (SpaceHorizontally items gap).2.AnchorY) ∧
    ((SpaceHorizontally items gap).1.length = items.length) ∧
    ((((SpaceHorizontally items gap).1.headD junkNode).BBox.X = 0) ∧
      (∀ i : ℕ, i + 1 < (SpaceHorizontally items gap).1.length →
        (((SpaceHorizontally items gap).1.getD (i + 1) junkNode).BBox.X =
          ((SpaceHorizontally items gap).1.getD i junkNode).BBox.X2 + gap))) ∧
    ((SpaceHorizontally items gap).2.AnchorLeft =
        ((SpaceHorizontally items gap).1.headD junkNode).BBox.AnchorLeft ∧
      (SpaceHorizontally items gap).2.AnchorRight =
        ((SpaceHorizontally items gap).1.getLastD junkNode).BBox.AnchorRight) ∧
    ((∀ r ∈ (SpaceHorizontally items gap).1, (SpaceHorizontally items gap).2.Y ≤ r.BBox.Y) ∧
      (∃ r ∈ (SpaceHorizontally items gap).1, (SpaceHorizontally items gap).2.Y = r.BBox.Y) ∧
      (∀ r ∈ (SpaceHorizontally items gap).1,
        r.BBox.Y2 ≤ (SpaceHorizontally items gap).2.Y + (SpaceHorizontally items gap).2.Height) ∧
      (∃ r ∈ (SpaceHorizontally items gap).1,
        (SpaceHorizontally items gap).2.Y + (SpaceHorizontally items gap).2.Height =
          r.BBox.Y2)) ∧
    (∀ g : ℚ, SpaceHorizontally [] g = ([], zeroBBox)) := by
  obtain ⟨a, rest, rfl⟩ : ∃ a rest, items = a :: rest := by
    cases items with
    | nil => exact absurd rfl hne
    | cons a rest => exact ⟨a, rest, rfl⟩
  simp only [SpaceHorizontally]
  set M := maxAnchorYLoop 0 (a :: rest) with hM
  rcases hloop : spaceHLoop gap M 0 maxFloat64 0 (a :: rest) with ⟨result, xf, minf, maxf⟩
  have hcore := spaceHLoop_core gap M (a :: rest) 0 maxFloat64 0
  have hmin := spaceHLoop_minY gap M (a :: rest) 0 maxFloat64 0
  have hmax := spaceHLoop_maxY gap M (a :: rest) 0 maxFloat64 0
  have hx := spaceHLoop_X gap M (a :: rest) 0 maxFloat64 0
  rw [hloop] at hcore hmin hmax hx
  dsimp only at hcore hmin hmax hx
  simp only [hloop]
  rcases hcore with ⟨hlen, hanch, hfwd, hbwd⟩
  rcases hmin with ⟨hminle, hminall, hminmem⟩
  rcases hmax with ⟨hmaxge, hmaxall, hmaxmem⟩
  rcases hx with ⟨hheadx, hchain⟩
  have hMle := maxAnchorYLoop_le (a :: rest) 0
  have hMmem := maxAnchorYLoop_mem (a :: rest) 0
  rw [← hM] at hMle hMmem
  have hMbound : M ≤ maxFloat64 := by
    refine maxAnchorYLoop_le_bound (a :: rest) maxFloat64 ?_ 0 maxFloat64_nonneg
    intro it hit
    exact (hgood it hit).2.2.2
  have hresne : result ≠ [] := by
    intro h
    rw [h] at hlen
    simp at hlen
  have hr0 := headD_mem result junkNode hresne
  -- bounds on any translated box
  have hbounds : ∀ r ∈ result, r.BBox.Y ≤ M ∧ M ≤ r.BBox.Y2 := by
    intro r hr
    rcases hbwd r hr with ⟨it, hit, hy, hy2⟩
    rcases hgood it hit with ⟨g1, g2, g3, g4⟩
    have hM1 := hMle.2 it hit
    constructor
    · rw [hy]
      linarith
    · rw [hy2]
      linarith
  refine ⟨⟨?_, ?_⟩, ?_, ?_, ⟨?_, ?_⟩, ⟨?_, ?_⟩, ⟨?_, ?_, ?_, ?_⟩, ?_⟩
  · intro it hit
    exact hMle.2 it hit
  · rcases hMmem with h | ⟨it, hit, h⟩
    · refine ⟨a, List.mem_cons_self a rest, ?_⟩
      have h3 := (hgood a (List.mem_cons_self a rest)).2.2.1
      have h1 := hMle.2 a (List.mem_cons_self a rest)
      rw [h] at h1 ⊢
      linarith
    · exact ⟨it, hit, h⟩
  · intro r hr
    exact hanch r hr
  · exact hlen
  · exact hheadx hne
  · intro i hi
    exact hchain i hi
  · trivial
  · trivial
  · intro r hr
    exact hminall r hr
  · rcases hminmem with h | ⟨r, hmem, h⟩
    · refine ⟨result.headD junkNode, hr0, ?_⟩
      have h1 := hminall _ hr0
      have h2 := (hbounds _ hr0).1
      rw [h] at h1 ⊢
      linarith
    · exact ⟨r, hmem, h⟩
  · intro r hr
    have := hmaxall r hr
    linarith
  · have hagg : minf + (maxf - minf) = maxf := by ring
    rw [hagg]
    rcases hmaxmem with h | ⟨r, hmem, h⟩
    · refine ⟨result.headD junkNode, hr0, ?_⟩
      have h1 := hmaxall _ hr0
      have h2 := (hbounds _ hr0).2
      have h3 : 0 ≤ M := hMle.1
      rw [h] at h1 ⊢
      linarith
    · exact ⟨r, hmem, h⟩
  · intro g
    trivial

/-- Counterexample to C8 as stated: for a single item whose `AnchorY` is
negative, the Go loop computes `maxAnchorY` starting from `0.0`, so the
aggregate anchor is `0`, not the item's maximum anchor `-1`. -/
theorem SpaceHorizontally_counterexample :
    (SpaceHorizontally [⟨.group "" "" [], ⟨0, -2, 1, 2, 0, 1, -1⟩⟩] 0).2.AnchorY = 0 ∧
    (⟨0, -2, 1, 2, 0, 1, -1⟩ : BoundingBox).AnchorY = -1 ∧ (0 : ℚ) ≠ -1 := by
  refine ⟨?_, rfl, by norm_num⟩
  with_unfolding_all rfl

theorem SpaceHorizontally_spec_witness :
    ((SpaceHorizontally [⟨SVGElement.group "" "" [], NewBoundingBox 0 0 2 2⟩] 5).1.length = 1) ∧
    ([⟨SVGElement.group "" "" [], NewBoundingBox 0 0 2 2⟩] : List RenderedNode) ≠ [] := by
  constructor
  · refine (SpaceHorizontally_spec [⟨SVGElement.group "" "" [], NewBoundingBox 0 0 2 2⟩] 5
      (by simp) ?_).2.2.1
    intro it hit
    simp only [List.mem_singleton] at hit
    subst hit
    refine ⟨by norm_num [NewBoundingBox], by norm_num [NewBoundingBox, BoundingBox.Y2], ?_, ?_⟩
    · norm_num [NewBoundingBox]
    · have := maxFloat64_ge_one
      norm_num [NewBoundingBox]
      linarith
  · simp

/-- The anchor bound of the claim: `Y ≤ AnchorY ≤ Y + Height`. -/
def anchorBound (b : BoundingBox) : Prop :=
  b.Y ≤ b.AnchorY ∧ b.AnchorY ≤ b.Y + b.Height

/-- The stronger invariant every renderer-produced box satisfies: it is
anchored at `Y = 0` with `0 ≤ AnchorY ≤ Height`. -/
def RB (b : BoundingBox) : Prop :=
  b.Y = 0 ∧ 0 ≤ b.AnchorY ∧ b.AnchorY ≤ b.Height

/-- Non-negative configuration dimensions. -/
def cfgNonneg (cfg : Config) : Prop :=
  0 ≤ cfg.Padding ∧ 0 ≤ cfg.FontSize ∧ 0 ≤ cfg.CharWidth ∧
  0 ≤ cfg.HorizontalGap ∧ 0 ≤ cfg.VerticalGap

theorem RB_anchorBound (b : BoundingBox) (h : RB b) : anchorBound b := by
  rcases h with ⟨h0, h1, h2⟩
  constructor
  · rw [h0]; exact h1
  · rw [h0]; simpa using h2

theorem RB_NewBB0 (w h : ℚ) (hh : 0 ≤ h) : RB (NewBoundingBox 0 0 w h) := by
  refine ⟨rfl, ?_, ?_⟩ <;> simp [NewBoundingBox] <;> linarith

theorem RB_renderLabel (cfg : Config) (hc : cfgNonneg cfg) (text cls : String) :
    RB (renderLabel cfg text cls).BBox := by
  rcases hc with ⟨hp, hf, _⟩
  simp only [renderLabel]
  exact RB_NewBB0 _ _ (by linarith)

theorem RB_renderQuotedLabel (cfg : Config) (hc : cfgNonneg cfg) (text cls : String) :
    RB (renderQuotedLabel cfg text cls).BBox := by
  rcases hc with ⟨hp, hf, _⟩
  simp only [renderQuotedLabel]
  exact RB_NewBB0 _ _ (by linarith)

theorem RB_renderComment (cfg : Config) (hc : cfgNonneg cfg) (t : String) :
    RB (renderComment cfg t).BBox := by
  rcases hc with ⟨hp, hf, _⟩
  simp only [renderComment]
  exact RB_NewBB0 _ _ (by linarith)

theorem RB_renderAnchor (cfg : Config) (hc : cfgNonneg cfg) (a : String) :
    RB (renderAnchor cfg a).BBox := by
  simp only [renderAnchor]
  exact RB_renderLabel cfg hc _ _

theorem RB_renderBackReference (cfg : Config) (hc : cfgNonneg cfg) (n : Int) (nm : String) :
    RB (renderBackReference cfg n nm).BBox := by
  simp only [renderBackReference]
  exact RB_renderLabel cfg hc _ _

theorem RB_renderUnicodePropertyEscape (cfg : Config) (hc : cfgNonneg cfg) (p : String)
    (neg : Bool) : RB (renderUnicodePropertyEscape cfg p neg).BBox := by
  simp only [renderUnicodePropertyEscape]
  exact RB_renderLabel cfg hc _ _

theorem RB_renderRecursiveRef (cfg : Config) (hc : cfgNonneg cfg) (t : String) :
    RB (renderRecursiveRef cfg t).BBox := by
  simp only [renderRecursiveRef]
  exact RB_renderLabel cfg hc _ _

theorem RB_renderBacktrackControl (cfg : Config) (hc : cfgNonneg cfg) (v a : String) :
    RB (renderBacktrackControl cfg v a).BBox := by
  simp only [renderBacktrackControl]
  exact RB_renderLabel cfg hc _ _

theorem RB_renderCallout (cfg : Config) (hc : cfgNonneg cfg) (n : Int) (t : String) :
    RB (renderCallout cfg n t).BBox := by
  simp only [renderCallout]
  exact RB_renderLabel cfg hc _ _

theorem RB_renderLabeledBox (cfg : Config) (hc : cfgNonneg cfg) (label : String)
    (items : List String) (cls : String) : RB (renderLabeledBox cfg label items cls).BBox := by
  rcases hc with ⟨hp, hf, _⟩
  simp only [renderLabeledBox]
  refine RB_NewBB0 _ _ ?_
  have hn : (0 : ℚ) ≤ (items.length : ℚ) := by positivity
  have hih : (0 : ℚ) ≤ cfg.FontSize + cfg.Padding / 2 := by linarith
  have := mul_nonneg hn hih
  linarith

theorem RB_renderCharset (cfg : Config) (hc : cfgNonneg cfg) (inv : Bool)
    (items : List CharsetItem) : RB (renderCharset cfg inv items).BBox := by
  simp only [renderCharset]
  exact RB_renderLabeledBox cfg hc _ _ _

theorem RB_renderFlags (cfg : Config) (hc : cfgNonneg cfg) (flags : String) :
    RB (renderFlags cfg flags).BBox := by
  rcases hc with ⟨hp, hf, _⟩
  simp only [renderFlags]
  refine RB_NewBB0 _ _ ?_
  have hn : (0 : ℚ) ≤ ((flags.data.filterMap flagDesc).length : ℚ) := by positivity
  have hih : (0 : ℚ) ≤ cfg.FontSize + cfg.Padding / 2 := by linarith
  have := mul_nonneg hn hih
  linarith

theorem RB_renderSubexpBox (cfg : Config) (hc : cfgNonneg cfg) (label : String)
    (content : RenderedNode) (fill : String) (hrb : RB content.BBox) :
    RB (renderSubexpBox cfg label content fill).BBox := by
  rcases hc with ⟨hp, hf, _⟩
  rcases hrb with ⟨h0, h1, h2⟩
  simp only [renderSubexpBox]
  exact ⟨rfl, by dsimp only; linarith, by dsimp only; linarith⟩

theorem RB_renderLabeledBoxWithContent (cfg : Config) (hc : cfgNonneg cfg) (label : String)
    (content : RenderedNode) (cls : String) (hrb : RB content.BBox) :
    RB (renderLabeledBoxWithContent cfg label content cls).BBox := by
  rcases hc with ⟨hp, hf, _⟩
  rcases hrb with ⟨h0, h1, h2⟩
  simp only [renderLabeledBoxWithContent]
  exact ⟨rfl, by dsimp only; linarith, by dsimp only; linarith⟩

theorem RB_renderWithRepeat (cfg : Config) (hc : cfgNonneg cfg) (content : RenderedNode)
    (rep : Repeat) (hrb : RB content.BBox) : RB (renderWithRepeat cfg content rep).BBox := by
  rcases hc with ⟨hp, hf, _⟩
  rcases hrb with ⟨h0, h1, h2⟩
  simp only [renderWithRepeat]
  split_ifs <;>
    exact ⟨rfl, by dsimp only; linarith, by dsimp only; linarith⟩

theorem RB_zeroBBox : RB zeroBBox := ⟨rfl, le_refl 0, le_refl 0⟩

set_option maxHeartbeats 1000000 in
theorem SpaceHorizontally_RB (items : List RenderedNode) (gap : ℚ)
    (hgood : ∀ it ∈ items, RB it.BBox) :
    RB (SpaceHorizontally items gap).2 := by
  cases items with
  | nil =>
    simp only [SpaceHorizontally]
    exact RB_zeroBBox
  | cons a rest =>
    simp only [SpaceHorizontally]
    set M := maxAnchorYLoop 0 (a :: rest) with hM
    rcases hloop : spaceHLoop gap M 0 maxFloat64 0 (a :: rest) with ⟨result, xf, minf, maxf⟩
    have hcore := spaceHLoop_core gap M (a :: rest) 0 maxFloat64 0
    have hmin := spaceHLoop_minY gap M (a :: rest) 0 maxFloat64 0
    have hmax := spaceHLoop_maxY gap M (a :: rest) 0 maxFloat64 0
    rw [hloop] at hcore hmin hmax
    dsimp only at hcore hmin hmax
    simp only [hloop]
    rcases hcore with ⟨hlen, hanch, hfwd, hbwd⟩
    rcases hmin with ⟨hminle, hminall, hminmem⟩
    rcases hmax with ⟨hmaxge, hmaxall, hmaxmem⟩
    have hMle := maxAnchorYLoop_le (a :: rest) 0
    have hMmem := maxAnchorYLoop_mem (a :: rest) 0
    rw [← hM] at hMle hMmem
    have hresne : result ≠ [] := by
      intro h
      rw [h] at hlen
      simp at hlen
    have hr0 := headD_mem result junkNode hresne
    have htrY : ∀ r ∈ result, 0 ≤ r.BBox.Y ∧ M ≤ r.BBox.Y2 := by
      intro r hr
      rcases hbwd r hr with ⟨it, hit, hy, hy2⟩
      rcases hgood it hit with ⟨g0, g1, g2⟩
      have hle := hMle.2 it hit
      have hY2 : it.BBox.Y2 = it.BBox.Height := by
        simp [BoundingBox.Y2, g0]
      constructor
      · rw [hy, g0]; linarith
      · rw [hy2, hY2]; linarith
    have hminf0 : minf = 0 := by
      have hge : 0 ≤ minf := by
        rcases hminmem with h | ⟨r, hmem, h⟩
        · rw [h]; exact maxFloat64_nonneg
        · rw [h]; exact (htrY r hmem).1
      have hle0 : minf ≤ 0 := by
        rcases hMmem with h | ⟨it, hit, h⟩
        · rcases hbwd _ hr0 with ⟨it, hit, hy, _⟩
          rcases hgood it hit with ⟨g0, g1, g2⟩
          have hm := hminall _ hr0
          rw [hy, g0, h] at hm
          linarith
        · rcases hfwd it hit with ⟨r, hmem, hy, _⟩
          rcases hgood it hit with ⟨g0, g1, g2⟩
          have hm := hminall r hmem
          rw [hy, g0, ← h] at hm
          linarith
      linarith
    refine ⟨?_, ?_, ?_⟩
    · dsimp only
      exact hminf0
    · dsimp only
      exact hMle.1
    · dsimp only
      have h1 := (htrY _ hr0).2
      have h2 := hmaxall _ hr0
      rw [hminf0]
      simp only [BoundingBox.Y2] at h1 h2
      linarith

theorem spaceVLoop_Y2 (padding mw : ℚ) (hpad : 0 ≤ padding) :
    ∀ (items : List RenderedNode) (y : ℚ), 0 ≤ y →
      (∀ it ∈ items, 0 ≤ it.BBox.Height) →
      ((spaceVLoop padding mw y items).1.length = items.length ∧
        ∀ r ∈ (spaceVLoop padding mw y items).1, 0 ≤ r.BBox.Y2) := by
  intro items
  induction items with
  | nil =>
    intro y hy hh
    simp [spaceVLoop]
  | cons it rest ih =>
    intro y hy hh
    simp only [spaceVLoop]
    set nb := it.BBox.Translate ((mw - it.BBox.Width) / 2 - it.BBox.X) (y - it.BBox.Y) with hnb
    rcases heq : spaceVLoop padding mw (nb.Y2 + padding) rest with ⟨rs, yf⟩
    have hnbY2 : nb.Y2 = y + it.BBox.Height := by
      simp [hnb, BoundingBox.Translate, BoundingBox.Y2]
      try ring
    have hH := hh it (List.mem_cons_self it rest)
    have hnext : (0 : ℚ) ≤ nb.Y2 + padding := by rw [hnbY2]; linarith
    rcases ih (nb.Y2 + padding) hnext (fun x hx => hh x (List.mem_cons_of_mem it hx))
      with ⟨ihlen, ihall⟩
    rw [heq] at ihlen ihall
    simp only [heq]
    refine ⟨by simpa using ihlen, ?_⟩
    intro r hr
    rcases List.mem_cons.mp hr with h | h
    · subst h
      rw [hnbY2]
      linarith
    · exact ihall r h

theorem getLastD_mem (l : List RenderedNode) :
    ∀ d : RenderedNode, l ≠ [] → l.getLastD d ∈ l := by
  induction l with
  | nil =>
    intro d h
    exact absurd rfl h
  | cons a rest ih =>
    intro d _
    rw [List.getLastD_cons]
    cases rest with
    | nil => simp [List.getLastD]
    | cons b rs => exact List.mem_cons_of_mem a (ih a (by simp))

set_option maxHeartbeats 1000000 in
theorem SpaceVertically_RB (items : List RenderedNode) (gap : ℚ) (hgap : 0 ≤ gap)
    (hgood : ∀ it ∈ items, 0 ≤ it.BBox.Height) :
    RB (SpaceVertically items gap).2 ∧ 0 ≤ (SpaceVertically items gap).2.Height := by
  cases items with
  | nil =>
    simp only [SpaceVertically]
    exact ⟨RB_zeroBBox, le_refl 0⟩
  | cons a rest =>
    simp only [SpaceVertically]
    set mw := maxWidthLoop 0 (a :: rest) with hmw
    rcases hloop : spaceVLoop gap mw 0 (a :: rest) with ⟨result, yf⟩
    have h := spaceVLoop_Y2 gap mw hgap (a :: rest) 0 (le_refl 0) hgood
    rw [hloop] at h
    rcases h with ⟨hlen, hall⟩
    simp only [hloop]
    dsimp only at hlen hall ⊢
    have hresne : result ≠ [] := by
      intro hr
      rw [hr] at hlen
      simp at hlen
    have hlast := getLastD_mem result junkNode hresne
    have hY2 := hall _ hlast
    have hpos : result.length > 0 := by
      rw [hlen]
      simp
    rw [if_pos hpos]
    exact ⟨⟨rfl, by linarith, by linarith⟩, by linarith⟩

set_option maxHeartbeats 2000000 in
theorem renderRBAll (cfg : Config) (hc : cfgNonneg cfg) :
    (∀ (st : Int) (r : Regexp), RB (renderRegexp cfg st r).1.BBox) ∧
    (∀ (st : Int) (ms : List Match), ∀ x ∈ (renderAlternativeItems cfg st ms).1, RB x.BBox) ∧
    (∀ (st : Int) (m : Match), RB (renderMatch cfg st m).1.BBox) ∧
    (∀ (st : Int) (fs : List MatchFragment),
      ∀ x ∈ (renderFragmentItems cfg st fs).1, RB x.BBox) ∧
    (∀ (st : Int) (mf : MatchFragment), RB (renderMatchFragment cfg st mf).1.BBox) ∧
    (∀ (st : Int) (n : Node), RB (renderNode cfg st n).1.BBox) := by
  refine renderRegexp.mutual_induct cfg
    (fun st r => RB (renderRegexp cfg st r).1.BBox)
    (fun st ms => ∀ x ∈ (renderAlternativeItems cfg st ms).1, RB x.BBox)
    (fun st m => RB (renderMatch cfg st m).1.BBox)
    (fun st fs => ∀ x ∈ (renderFragmentItems cfg st fs).1, RB x.BBox)
    (fun st mf => RB (renderMatchFragment cfg st mf).1.BBox)
    (fun st n => RB (renderNode cfg st n).1.BBox)
    ?_ ?_ ?_ ?_ ?_ ?_ ?_ ?_ ?_ ?_ ?_ ?_ ?_ ?_ ?_ ?_ ?_
    ?_ ?_ ?_ ?_ ?_ ?_ ?_ ?_ ?_ ?_ ?_ ?_ ?_ ?_ ?_ ?_ ?_
  -- renderRegexp, no branches
  · intro st f o
    simp only [renderRegexp]
    exact RB_NewBB0 _ _ (le_refl 0)
  -- renderRegexp, one branch
  · intro st f o m ih
    simp only [renderRegexp]
    exact ih
  -- renderRegexp, alternation
  · intro st f o h1 h2 tl items st' heq spaced total heq2 ih
    rw [heq] at ih
    dsimp only at ih
    have hsv := SpaceVertically_RB items (cfg.VerticalGap * 2)
      (by rcases hc with ⟨_, _, _, _, hv⟩; linarith)
      (fun it hit => le_trans (ih it hit).2.1 (ih it hit).2.2)
    rw [heq2] at hsv
    dsimp only at hsv
    have hh : 0 ≤ total.Height := hsv.2
    simp only [renderRegexp, heq, heq2, assembleAlternation]
    exact ⟨rfl, by dsimp only; linarith, by dsimp only; linarith⟩
  -- renderAlternativeItems, nil
  · intro st x hx
    simp [renderAlternativeItems] at hx
  -- renderAlternativeItems, cons
  · intro st m rest rn st1 heq1 items st' heq2 ihm ihrest
    rw [heq1] at ihm
    rw [heq2] at ihrest
    dsimp only at ihm ihrest
    intro x hx
    simp only [renderAlternativeItems, heq1, heq2] at hx
    try dsimp only at hx
    rcases List.mem_cons.mp hx with h | h
    · subst h
      exact ihm
    · exact ihrest x h
  -- renderMatch, nil
  · intro st
    simp only [renderMatch]
    exact RB_NewBB0 _ _ (le_refl 0)
  -- renderMatch, cons
  · intro st hd tl items st' heq spaced total heq2 ih
    rw [heq] at ih
    dsimp only at ih
    have hsp := SpaceHorizontally_RB items cfg.HorizontalGap ih
    rw [heq2] at hsp
    simp only [renderMatch, heq, heq2]
    exact hsp
  -- renderFragmentItems, nil
  · intro st x hx
    simp [renderFragmentItems] at hx
  -- renderFragmentItems, cons
  · intro st f rest rn st1 heq1 items st' heq2 ihf ihrest
    rw [heq1] at ihf
    rw [heq2] at ihrest
    dsimp only at ihf ihrest
    intro x hx
    simp only [renderFragmentItems, heq1, heq2] at hx
    try dsimp only at hx
    rcases List.mem_cons.mp hx with h | h
    · subst h
      exact ihf
    · exact ihrest x h
  -- renderMatchFragment, no quantifier
  · intro st content rn st1 heq ih
    rw [heq] at ih
    simp only [renderMatchFragment, heq]
    exact ih
  -- renderMatchFragment, quantifier
  · intro st content rn st1 heq rp ih
    rw [heq] at ih
    dsimp only at ih
    simp only [renderMatchFragment, heq]
    exact RB_renderWithRepeat cfg hc rn rp ih
  -- renderNode, regexp
  · intro st r ih
    simp only [renderNode]
    exact ih
  -- renderNode, matchNode
  · intro st m ih
    simp only [renderNode]
    exact ih
  -- renderNode, matchFragment
  · intro st mf ih
    simp only [renderNode]
    exact ih
  -- renderNode, literal
  · intro st t
    simp only [renderNode]
    exact RB_renderQuotedLabel cfg hc t "literal"
  -- renderNode, escape
  · intro st et c v
    simp only [renderNode]
    exact RB_renderLabel cfg hc v "escape"
  -- renderNode, anchor
  · intro st a
    simp only [renderNode]
    exact RB_renderAnchor cfg hc a
  -- renderNode, anyCharacter
  · intro st
    simp only [renderNode]
    exact RB_renderLabel cfg hc "any character" "any-character"
  -- renderNode, charset
  · intro st inv items
    simp only [renderNode]
    exact RB_renderCharset cfg hc inv items
  -- renderNode, subexp
  · intro st gt num nm rg rn st1 heq ih
    rw [heq] at ih
    dsimp only at ih
    simp only [renderNode, heq]
    exact RB_renderSubexpBox cfg hc _ rn _ ih
  -- renderNode, backReference
  · intro st n nm
    simp only [renderNode]
    exact RB_renderBackReference cfg hc n nm
  -- renderNode, unicodePropertyEscape
  · intro st p neg
    simp only [renderNode]
    exact RB_renderUnicodePropertyEscape cfg hc p neg
  -- renderNode, quotedLiteral
  · intro st t
    simp only [renderNode]
    exact RB_renderQuotedLabel cfg hc t "literal"
  -- renderNode, comment
  · intro st t
    simp only [renderNode]
    exact RB_renderComment cfg hc t
  -- renderNode, inlineModifier with nested regexp
  · intro st en dis rg rn st1 heq ih
    rw [heq] at ih
    dsimp only at ih
    simp only [renderNode, heq]
    exact RB_renderLabeledBoxWithContent cfg hc _ rn _ ih
  -- renderNode, inlineModifier without nested regexp
  · intro st en dis
    simp only [renderNode]
    exact RB_renderLabel cfg hc _ _
  -- renderNode, balancedGroup
  · intro st nm onm rg rn st1 heq ih
    rw [heq] at ih
    dsimp only at ih
    simp only [renderNode, heq]
    exact RB_renderSubexpBox cfg hc _ rn _ ih
  -- renderNode, conditional with else branch
  · intro st cond tm rnY st1 heqY
    intro yesLabel ysp ybb heqYS
    intro rg rnN st2 heqN
    intro noLabel nsp nbb heqNS
    intro ihY ihN
    rw [heqY] at ihY
    rw [heqN] at ihN
    dsimp only at ihY ihN
    have hyes := SpaceHorizontally_RB [yesLabel, rnY] cfg.HorizontalGap (by
      intro x hx
      rcases List.mem_cons.mp hx with h | h
      · subst h
        exact RB_renderLabel cfg hc "then" "condition-label"
      · rcases List.mem_cons.mp h with h2 | h2
        · subst h2
          exact ihY
        · simp at h2)
    rw [heqYS] at hyes
    dsimp only at hyes
    have hno := SpaceHorizontally_RB [noLabel, rnN] cfg.HorizontalGap (by
      intro x hx
      rcases List.mem_cons.mp hx with h | h
      · subst h
        exact RB_renderLabel cfg hc "else" "condition-label"
      · rcases List.mem_cons.mp h with h2 | h2
        · subst h2
          exact ihN
        · simp at h2)
    rw [heqNS] at hno
    dsimp only at hno
    have hyH : 0 ≤ ybb.Height := le_trans hyes.2.1 hyes.2.2
    have hnH : 0 ≤ nbb.Height := le_trans hno.2.1 hno.2.2
    simp only [renderNode, heqY, heqYS, heqN, heqNS]
    refine RB_renderLabeledBoxWithContent cfg hc _ _ _ ?_
    refine RB_NewBB0 _ _ ?_
    rcases hc with ⟨_, _, _, _, hv⟩
    linarith
  -- renderNode, conditional without else branch
  · intro st cond tm rnY st1 heqY
    intro yesLabel ysp ybb heqYS
    intro ihY
    rw [heqY] at ihY
    dsimp only at ihY
    have hyes := SpaceHorizontally_RB [yesLabel, rnY] cfg.HorizontalGap (by
      intro x hx
      rcases List.mem_cons.mp hx with h | h
      · subst h
        exact RB_renderLabel cfg hc "then" "condition-label"
      · rcases List.mem_cons.mp h with h2 | h2
        · subst h2
          exact ihY
        · simp at h2)
    rw [heqYS] at hyes
    dsimp only at hyes
    have hyH : 0 ≤ ybb.Height := le_trans hyes.2.1 hyes.2.2
    simp only [renderNode, heqY, heqYS]
    refine RB_renderLabeledBoxWithContent cfg hc _ _ _ ?_
    exact RB_NewBB0 _ _ hyH
  -- renderNode, recursiveRef
  · intro st t
    simp only [renderNode]
    exact RB_renderRecursiveRef cfg hc t
  -- renderNode, branchReset
  · intro st rg rn st1 heq ih
    rw [heq] at ih
    dsimp only at ih
    simp only [renderNode, heq]
    exact RB_renderSubexpBox cfg hc _ rn _ ih
  -- renderNode, backtrackControl
  · intro st v a
    simp only [renderNode]
    exact RB_renderBacktrackControl cfg hc v a
  -- renderNode, callout
  · intro st n t
    simp only [renderNode]
    exact RB_renderCallout cfg hc n t
  -- renderNode, atomicGroup (default arm)
  · intro st rg
    simp only [renderNode]
    exact RB_renderLabel cfg hc _ _

theorem anchorBound_NewBB (x y w h : ℚ) (hh : 0 ≤ h) : anchorBound (NewBoundingBox x y w h) := by
  simp only [anchorBound, NewBoundingBox]
  constructor <;> dsimp only <;> linarith

/-- C7: with non-negative configuration dimensions, every bounding box a
render pass computes satisfies `Y ≤ AnchorY ≤ Y + Height`: the boxes of
every rendered node and regexp, boxes built by `NewBoundingBox` with a
non-negative height, the aggregate boxes of `SpaceHorizontally` and
`SpaceVertically` on renderer-produced inputs, and the hand-assembled
boxes of the quantifier (`renderWithRepeat`), alternation
(`assembleAlternation`) and titled-box (`renderSubexpBox`,
`renderLabeledBoxWithContent`, `renderLabeledBox`) rules. -/
theorem render_anchor_bounds (cfg : Config) (hc : cfgNonneg cfg) :
    (∀ (st : Int) (n : Node), anchorBound (renderNode cfg st n).1.BBox) ∧
    (∀ (st : Int) (r : Regexp), anchorBound (renderRegexp cfg st r).1.BBox) ∧
    (∀ x y w h : ℚ, 0 ≤ h → anchorBound (NewBoundingBox x y w h)) ∧
    (∀ (items : List RenderedNode) (gap : ℚ), (∀ it ∈ items, RB it.BBox) →
      anchorBound (SpaceHorizontally items gap).2) ∧
    (∀ (items : List RenderedNode) (gap : ℚ), 0 ≤ gap →
      (∀ it ∈ items, 0 ≤ it.BBox.Height) →
      anchorBound (SpaceVertically items gap).2) ∧
    (∀ (content : RenderedNode) (rep : Repeat), RB content.BBox →
      anchorBound (renderWithRepeat cfg content rep).BBox) ∧
    (∀ (spacedItems : List RenderedNode) (totalBBox : BoundingBox), 0 ≤ totalBBox.Height →
      anchorBound (assembleAlternation cfg spacedItems totalBBox).BBox) ∧
    (∀ (label : String) (content : RenderedNode) (fill : String), RB content.BBox →
      anchorBound (renderSubexpBox cfg label content fill).BBox) ∧
    (∀ (label : String) (content : RenderedNode) (cls : String), RB content.BBox →
      anchorBound (renderLabeledBoxWithContent cfg label content cls).BBox) ∧
    (∀ (label : String) (items : List String) (cls : String),
      anchorBound (renderLabeledBox cfg label items cls).BBox) := by
  have hall := renderRBAll cfg hc
  refine ⟨?_, ?_, ?_, ?_, ?_, ?_, ?_, ?_, ?_, ?_⟩
  · intro st n
    exact RB_anchorBound _ (hall.2.2.2.2.2 st n)
  · intro st r
    exact RB_anchorBound _ (hall.1 st r)
  · intro x y w h hh
    exact anchorBound_NewBB x y w h hh
  · intro items gap hgood
    exact RB_anchorBound _ (SpaceHorizontally_RB items gap hgood)
  · intro items gap hgap hgood
    exact RB_anchorBound _ (SpaceVertically_RB items gap hgap hgood).1
  · intro content rep hrb
    exact RB_anchorBound _ (RB_renderWithRepeat cfg hc content rep hrb)
  · intro spacedItems totalBBox hh
    simp only [assembleAlternation]
    exact RB_anchorBound _ ⟨rfl, by dsimp only; linarith, by dsimp only; linarith⟩
  · intro label content fill hrb
    exact RB_anchorBound _ (RB_renderSubexpBox cfg hc label content fill hrb)
  · intro label content cls hrb
    exact RB_anchorBound _ (RB_renderLabeledBoxWithContent cfg hc label content cls hrb)
  · intro label items cls
    exact RB_anchorBound _ (RB_renderLabeledBox cfg hc label items cls)

theorem render_anchor_bounds_witness :
    cfgNonneg DefaultConfig ∧
    anchorBound (renderNode DefaultConfig 0 (Node.literal "a")).1.BBox := by
  have hc : cfgNonneg DefaultConfig := by
    refine ⟨?_, ?_, ?_, ?_, ?_⟩ <;> norm_num [DefaultConfig]
  exact ⟨hc, (render_anchor_bounds DefaultConfig hc).1 0 (Node.literal "a")⟩

theorem renderFlags_behavior_witness :
    ((Regexp.mk [] "gi" []).Flags ≠ "" ∧ (Regexp.mk [] "gi" []).Options = []) ∧
    ∃ tf : String,
      (elementChildren (RenderSvg DefaultConfig 0 (Regexp.mk [] "gi" [])).1).getLast? =
        some (.group "" tf [(renderFlags DefaultConfig "gi").Element]) := by
  refine ⟨⟨by decide, rfl⟩, ?_⟩
  exact (renderFlags_behavior.2.2 DefaultConfig 0 (Regexp.mk [] "gi" []) (by decide) rfl).2

set_option maxRecDepth 1000000 in
/-- C9 counterexample: with `Padding = 0`, the string emitted by `Render`
contains the no-op transform `translate(0,0)` — renderer.go writes the
content group's `translate(%g,%g)` wrapper unconditionally, it is never
elided at the top level. -/
theorem Render_translate00_counterexample :
    strHasSub "translate(0,0)"
      (Render { DefaultConfig with Padding := 0 } 0 (Regexp.mk [] "" [])).1 = true := by
  with_unfolding_all rfl

/-- C9 (amended): a group element with empty class and transform renders
as a bare `<g>…</g>` with no attributes, and `wrapWithTransform` elides
the wrapping transform group exactly when both offsets are zero.  (The
original claim's "the emitted markup never contains translate(0,0)" is
false: `Render` emits the content-group wrapper unconditionally.) -/
theorem bareGroup_transform_elision (e : SVGElement) (cs : List SVGElement) (dx dy : ℚ) :
    renderElem (.group "" "" cs) = "<g>" ++ renderElems cs ++ "</g>" ∧
    wrapWithTransform e 0 0 = e ∧
    (¬ (dx = 0 ∧ dy = 0) → wrapWithTransform e dx dy =
      .group "" ("translate(" ++ fmtFloat dx ++ "," ++ fmtFloat dy ++ ")") [e]) := by
  refine ⟨?_, ?_, ?_⟩
  · simp [renderElem]
  · simp [wrapWithTransform]
  · intro h
    simp [wrapWithTransform, h]

theorem bareGroup_transform_elision_witness :
    (¬ ((1 : ℚ) = 0 ∧ (0 : ℚ) = 0)) ∧
    wrapWithTransform (SVGElement.group "" "" []) 1 0 =
      .group "" ("translate(" ++ fmtFloat 1 ++ "," ++ fmtFloat 0 ++ ")")
        [SVGElement.group "" "" []] := by
  refine ⟨by simp, ?_⟩
  exact (bareGroup_transform_elision (SVGElement.group "" "" []) [] 1 0).2.2 (by simp)

/-- The `<g` tag-opening token counted by C6. -/
def gOpen : List Char := ['<', 'g']

/-- The `</g>` tag-closing token counted by C6. -/
def gClose : List Char := ['<', '/', 'g', '>']

/-- Count of the occurrences of `p` at every position of a character
list. -/
def cntSub (p : List Char) : List Char → Nat
  | [] => 0
  | c :: rest => (if p.isPrefixOf (c :: rest) then 1 else 0) + cntSub p rest

/-- Occurrence count on strings. -/
def cntSubStr (pat s : String) : Nat := cntSub pat.data s.data

/-- No occurrence of `p` straddles the boundary of `a ++ b`. -/
def SplitSafe (p a b : List Char) : Prop :=
  ∀ k : Nat, 0 < k → k < p.length → ¬ ((p.take k) <:+ a ∧ (p.drop k) <+: b)

theorem take_append_le (x b : List Char) (n : Nat) (h : n ≤ x.length) :
    (x ++ b).take n = x.take n := by
  rw [List.take_append_eq_append_take]
  have h0 : n - x.length = 0 := by omega
  rw [h0]
  simp

theorem prefix_long_split (p x b : List Char) (hp : p <+: x ++ b)
    (hlong : x.length < p.length) :
    (p.take x.length) <:+ x ∧ (p.drop x.length) <+: b := by
  have hpeq : p = (x ++ b).take p.length := List.prefix_iff_eq_take.mp hp
  constructor
  · have he : p.take x.length = x := by
      conv_lhs => rw [hpeq]
      rw [List.take_take]
      have hmin : x.length ⊓ p.length = x.length := inf_eq_left.mpr (le_of_lt hlong)
      rw [hmin]
      exact List.take_left x b
    rw [he]
  · have he : p.drop x.length = b.take (p.length - x.length) := by
      conv_lhs => rw [hpeq]
      rw [List.drop_take, List.drop_left]
    rw [he]
    exact List.take_prefix _ _

theorem cntSub_append (p : List Char) :
    ∀ (a b : List Char), SplitSafe p a b →
      cntSub p (a ++ b) = cntSub p a + cntSub p b := by
  intro a
  induction a with
  | nil =>
    intro b _
    simp [cntSub]
  | cons c a' ih =>
    intro b h
    have h' : SplitSafe p a' b := by
      intro k h0 hk hand
      exact h k h0 hk ⟨hand.1.trans (List.suffix_cons c a'), hand.2⟩
    have hiff : (p.isPrefixOf (c :: (a' ++ b))) = (p.isPrefixOf (c :: a')) := by
      by_cases hshort : p.length ≤ (c :: a').length
      · have hiff2 : p <+: (c :: (a' ++ b)) ↔ p <+: (c :: a') := by
          constructor
          · intro hp
            have hpe := List.prefix_iff_eq_take.mp hp
            rw [ List.prefix_iff_eq_take]
            conv_lhs => rw [hpe]
            rw [← List.cons_append, take_append_le _ _ _ hshort]
          · intro hp
            have h2 := hp.trans (List.prefix_append (c :: a') b)
            rwa [List.cons_append] at h2
        rcases hb2 : p.isPrefixOf (c :: a') with _ | _
        · rcases hb1 : p.isPrefixOf (c :: (a' ++ b)) with _ | _
          · rfl
          · rw [ List.isPrefixOf_iff_prefix] at hb1
            have := List.isPrefixOf_iff_prefix.mpr (hiff2.mp hb1)
            rw [hb2] at this
            exact this.symm
        · rw [ List.isPrefixOf_iff_prefix] at hb2
          exact List.isPrefixOf_iff_prefix.mpr (hiff2.mpr hb2)
      · have hn2 : p.isPrefixOf (c :: a') = false := by
          rcases hb2 : p.isPrefixOf (c :: a') with _ | _
          · rfl
          · rw [ List.isPrefixOf_iff_prefix] at hb2
            exact absurd hb2.length_le hshort
        have hn1 : p.isPrefixOf (c :: (a' ++ b)) = false := by
          rcases hb1 : p.isPrefixOf (c :: (a' ++ b)) with _ | _
          · rfl
          · rw [ List.isPrefixOf_iff_prefix] at hb1
            rw [← List.cons_append] at hb1
            have hsplit := prefix_long_split p (c :: a') b hb1 (by omega)
            have hk0 : 0 < (c :: a').length := by simp
            have hkp : (c :: a').length < p.length := by omega
            exact absurd hsplit (h _ hk0 hkp)
        rw [hn1, hn2]
    have hfold : cntSub p (c :: (a' ++ b)) =
        (if p.isPrefixOf (c :: (a' ++ b)) then 1 else 0) + cntSub p (a' ++ b) := rfl
    have hfold2 : cntSub p (c :: a') =
        (if p.isPrefixOf (c :: a') then 1 else 0) + cntSub p a' := rfl
    rw [List.cons_append, hfold, hfold2, ih b h', hiff]
    omega

theorem splitSafe_of_left (p a b : List Char)
    (h : ∀ k : Nat, 0 < k → k < p.length → ¬ ((p.take k) <:+ a)) : SplitSafe p a b :=
  fun k h0 hk hand => h k h0 hk hand.1

theorem splitSafe_of_right (p a b : List Char)
    (h : ∀ k : Nat, 0 < k → k < p.length → ¬ ((p.drop k) <+: b)) : SplitSafe p a b :=
  fun k h0 hk hand => h k h0 hk hand.2

theorem splitSafe_no_lt (p' a b : List Char) (ha : '<' ∉ a) :
    SplitSafe ('<' :: p') a b := by
  intro k h0 hk hand
  apply ha
  apply hand.1.subset
  match k, h0 with
  | Nat.succ k, _ =>
    rw [List.take_succ_cons]
    exact List.mem_cons_self _ _

theorem splitSafe_lastChar (p a b : List Char) (c : Char) (hlast : a.getLast? = some c)
    (hp : ∀ k : Nat, 0 < k → k < p.length → (p.take k).getLast? ≠ some c) :
    SplitSafe p a b := by
  intro k h0 hk hand
  have hne : p.take k ≠ [] := by
    intro hnil
    have h2 := congrArg List.length hnil
    rw [List.length_take] at h2
    simp only [List.length_nil] at h2
    rw [inf_eq_left.mpr (le_of_lt hk)] at h2
    omega
  rcases hand.1 with ⟨t, ht⟩
  have hsome : ∃ x, (p.take k).getLast? = some x := by
    cases hcase : (p.take k).getLast? with
    | none => exact absurd (List.getLast?_eq_none_iff.mp hcase) hne
    | some x => exact ⟨x, rfl⟩
  rcases hsome with ⟨x, hx⟩
  have hax : a.getLast? = some x := by
    rw [← ht, List.getLast?_append, hx]
    rfl
  rw [hlast] at hax
  have := hp k h0 hk
  rw [hx] at this
  exact this (by rw [← hax])

theorem cntSub_zero (p' : List Char) :
    ∀ a : List Char, '<' ∉ a → cntSub ('<' :: p') a = 0 := by
  intro a
  induction a with
  | nil => intro _; rfl
  | cons c a' ih =>
    intro ha
    have hc : '<' ≠ c := fun h => ha (h ▸ List.mem_cons_self c a')
    have ha' : '<' ∉ a' := fun h => ha (List.mem_cons_of_mem c h)
    simp [cntSub, List.isPrefixOf, beq_false_of_ne hc, ih ha']

/-- The markup-safety side condition of C6 on a string: it contains no
`<` character (so it can open no tag). -/
def noLt (s : String) : Prop := '<' ∉ s.data

theorem noLt_append (a b : String) (ha : noLt a) (hb : noLt b) : noLt (a ++ b) := by
  intro hm
  rw [String.data_append, List.mem_append] at hm
  rcases hm with h | h
  · exact ha h
  · exact hb h

theorem noLt_of_all (s : String) (h : s.data.all (fun c => c != '<') = true) : noLt s := by
  intro hm
  have h2 := List.all_eq_true.mp h '<' hm
  simp at h2

set_option maxHeartbeats 1000000 in
theorem digitChar_ne_lt (n : Nat) : Nat.digitChar n ≠ '<' := by
  rcases Nat.lt_or_ge n 16 with h | h
  · interval_cases n <;> decide
  · unfold Nat.digitChar
    rw [if_neg (by omega : ¬ n = 0), if_neg (by omega : ¬ n = 1), if_neg (by omega : ¬ n = 2),
      if_neg (by omega : ¬ n = 3), if_neg (by omega : ¬ n = 4), if_neg (by omega : ¬ n = 5),
      if_neg (by omega : ¬ n = 6), if_neg (by omega : ¬ n = 7), if_neg (by omega : ¬ n = 8),
      if_neg (by omega : ¬ n = 9), if_neg (by omega : ¬ n = 10), if_neg (by omega : ¬ n = 11),
      if_neg (by omega : ¬ n = 12), if_neg (by omega : ¬ n = 13), if_neg (by omega : ¬ n = 14),
      if_neg (by omega : ¬ n = 15)]
    decide

theorem toDigitsCore_no_lt (b : Nat) :
    ∀ (fuel n : Nat) (ds : List Char), (∀ c ∈ ds, c ≠ '<') →
      ∀ c ∈ Nat.toDigitsCore b fuel n ds, c ≠ '<' := by
  intro fuel
  induction fuel with
  | zero =>
    intro n ds hds
    simpa [Nat.toDigitsCore] using hds
  | succ fuel ih =>
    intro n ds hds
    simp only [Nat.toDigitsCore]
    split_ifs with h
    · intro c hc
      rcases List.mem_cons.mp hc with h2 | h2
      · rw [h2]
        exact digitChar_ne_lt _
      · exact hds c h2
    · refine ih (n / b) ((n % b).digitChar :: ds) ?_
      intro c hc
      rcases List.mem_cons.mp hc with h2 | h2
      · rw [h2]
        exact digitChar_ne_lt _
      · exact hds c h2

theorem natRepr_no_lt (n : Nat) : noLt (toString n) := by
  intro h
  exact toDigitsCore_no_lt 10 (n + 1) n [] (by simp) '<' h rfl

theorem padZeros_no_lt (n : Nat) (s : String) (hs : noLt s) : noLt (padZeros n s) := by
  intro h
  simp only [padZeros, String.data_append] at h
  rcases List.mem_append.mp h with h2 | h2
  · have := List.eq_of_mem_replicate h2
    simp at this
  · exact hs h2

theorem trimZeroChars_no_lt (s : String) (hs : noLt s) : noLt (trimZeroChars s) := by
  intro h
  simp only [trimZeroChars] at h
  rw [List.mem_reverse] at h
  have h2 := (List.dropWhile_sublist _).subset h
  rw [List.mem_reverse] at h2
  exact hs h2

theorem fmtFloat_no_lt (v : ℚ) : noLt (fmtFloat v) := by
  have hd : noLt "-" := noLt_of_all _ (by decide)
  have he : noLt "" := noLt_of_all _ (by decide)
  have hdot : noLt "." := noLt_of_all _ (by decide)
  simp only [fmtFloat]
  split_ifs <;>
    first
      | exact noLt_append _ _ hd (natRepr_no_lt _)
      | exact noLt_append _ _ he (natRepr_no_lt _)
      | exact noLt_append _ _ (noLt_append _ _ (noLt_append _ _ hd (natRepr_no_lt _)) hdot)
          (trimZeroChars_no_lt _ (padZeros_no_lt _ _ (natRepr_no_lt _)))
      | exact noLt_append _ _ (noLt_append _ _ (noLt_append _ _ he (natRepr_no_lt _)) hdot)
          (trimZeroChars_no_lt _ (padZeros_no_lt _ _ (natRepr_no_lt _)))

theorem fmtG_no_lt (v : ℚ) : noLt (fmtG v) := fmtFloat_no_lt v

theorem fmt2f_no_lt (v : ℚ) : noLt (fmt2f v) := by
  have hd : noLt "-" := noLt_of_all _ (by decide)
  have he : noLt "" := noLt_of_all _ (by decide)
  have hdot : noLt "." := noLt_of_all _ (by decide)
  simp only [fmt2f]
  split_ifs <;>
    first
      | exact noLt_append _ _ (noLt_append _ _ (noLt_append _ _ hd (natRepr_no_lt _)) hdot)
          (padZeros_no_lt _ _ (natRepr_no_lt _))
      | exact noLt_append _ _ (noLt_append _ _ (noLt_append _ _ he (natRepr_no_lt _)) hdot)
          (padZeros_no_lt _ _ (natRepr_no_lt _))

theorem intercalate_go_no_lt (s : String) (hs : noLt s) :
    ∀ (l : List String) (acc : String), noLt acc → (∀ x ∈ l, noLt x) →
      noLt (String.intercalate.go acc s l) := by
  intro l
  induction l with
  | nil =>
    intro acc hacc _
    simpa [String.intercalate.go] using hacc
  | cons x xs ih =>
    intro acc hacc hl
    simp only [String.intercalate.go]
    exact ih (acc ++ s ++ x)
      (noLt_append _ _ (noLt_append _ _ hacc hs) (hl x (List.mem_cons_self _ _)))
      (fun y hy => hl y (List.mem_cons_of_mem _ hy))

theorem intercalate_no_lt (s : String) (l : List String) (hs : noLt s)
    (hl : ∀ x ∈ l, noLt x) : noLt (String.intercalate s l) := by
  cases l with
  | nil =>
    intro h
    simp [String.intercalate] at h
  | cons x xs =>
    simp only [String.intercalate]
    exact intercalate_go_no_lt s hs xs x (hl x (List.mem_cons_self _ _))
      (fun y hy => hl y (List.mem_cons_of_mem _ hy))

theorem escapeChar_no_lt (c : Char) : noLt (escapeChar c) := by
  unfold escapeChar
  split_ifs with h1 h2 h3 h4 h5
  · intro h; simp at h
  · intro h; simp at h
  · intro h; simp at h
  · intro h; simp at h
  · intro h; simp at h
  · intro h
    simp at h
    exact h3 h.symm

theorem join_data (ss : List String) :
    (String.join ss).data = (ss.map String.data).flatten := by
  rw [String.join_eq]

theorem escapeString_no_lt (s : String) : noLt (escapeString s) := by
  intro h
  simp only [escapeString] at h
  rw [join_data] at h
  rcases List.mem_flatten.mp h with ⟨l, hl, hc⟩
  rcases List.mem_map.mp hl with ⟨t, ht, rfl⟩
  rcases List.mem_map.mp ht with ⟨c, _, rfl⟩
  exact escapeChar_no_lt c hc

theorem gOpen_eq : gOpen = '<' :: ['g'] := rfl

theorem gClose_eq : gClose = '<' :: ['/', 'g', '>'] := rfl

theorem splitSafe_of_left2 (p a b : List Char)
    (h : ∀ k : Nat, k < p.length → (k = 0 ∨ ¬ ((p.take k) <:+ a))) : SplitSafe p a b :=
  fun k h0 hk hand => by
    rcases h k hk with h2 | h2
    · omega
    · exact h2 hand.1

theorem splitSafe_of_right2 (p a b : List Char)
    (h : ∀ k : Nat, k < p.length → (k = 0 ∨ ¬ ((p.drop k) <+: b))) : SplitSafe p a b :=
  fun k h0 hk hand => by
    rcases h k hk with h2 | h2
    · omega
    · exact h2 hand.2

theorem splitSafe_lastChar2 (p a b : List Char) (c : Char) (hlast : a.getLast? = some c)
    (hp : ∀ k : Nat, k < p.length → (k = 0 ∨ (p.take k).getLast? ≠ some c)) :
    SplitSafe p a b :=
  splitSafe_lastChar p a b c hlast (fun k h0 hk => by
    rcases hp k hk with h2 | h2
    · omega
    · exact h2)

theorem cntStr_append (p : List Char) (a b : String) (h : SplitSafe p a.data b.data) :
    cntSub p (a ++ b).data = cntSub p a.data + cntSub p b.data := by
  rw [String.data_append]
  exact cntSub_append p _ _ h

theorem cntStr_skip_noLt (p' : List Char) (a b : String) (ha : noLt a) :
    cntSub ('<' :: p') (a ++ b).data = cntSub ('<' :: p') b.data := by
  rw [String.data_append, cntSub_append _ _ _ (splitSafe_no_lt p' _ _ ha),
    cntSub_zero _ _ ha]
  simp

theorem cnt_gOpen_skip (a b : String) (ha : noLt a) :
    cntSub gOpen (a ++ b).data = cntSub gOpen b.data := by
  rw [gOpen_eq]
  exact cntStr_skip_noLt _ a b ha

theorem cnt_gClose_skip (a b : String) (ha : noLt a) :
    cntSub gClose (a ++ b).data = cntSub gClose b.data := by
  rw [gClose_eq]
  exact cntStr_skip_noLt _ a b ha

/-- `s` contributes no `<g` opening and no `</g>` closing. -/
def tagFree (s : String) : Prop :=
  cntSub gOpen s.data = 0 ∧ cntSub gClose s.data = 0

theorem tagFree_of_noLt (s : String) (h : noLt s) : tagFree s := by
  constructor
  · rw [gOpen_eq]
    exact cntSub_zero _ _ h
  · rw [gClose_eq]
    exact cntSub_zero _ _ h

theorem tagFree_balanced (s : String) (h : tagFree s) :
    cntSub gOpen s.data = cntSub gClose s.data := by
  rw [h.1, h.2]

theorem tagFree_chunk3 (A M C : String)
    (hA1 : ∀ k : Nat, k < gOpen.length → (k = 0 ∨ ¬ ((gOpen.take k) <:+ A.data)))
    (hA2 : ∀ k : Nat, k < gClose.length → (k = 0 ∨ ¬ ((gClose.take k) <:+ A.data)))
    (hAfree : tagFree A) (hM : noLt M) (hCfree : tagFree C) :
    tagFree (A ++ (M ++ C)) := by
  constructor
  · rw [cntStr_append gOpen _ _ (splitSafe_of_left2 _ _ _ hA1), hAfree.1,
      cnt_gOpen_skip _ _ hM, hCfree.1]
  · rw [cntStr_append gClose _ _ (splitSafe_of_left2 _ _ _ hA2), hAfree.2,
      cnt_gClose_skip _ _ hM, hCfree.2]

theorem forall_noLt_append (l₁ l₂ : List String) (h1 : ∀ x ∈ l₁, noLt x)
    (h2 : ∀ x ∈ l₂, noLt x) : ∀ x ∈ l₁ ++ l₂, noLt x := by
  intro x hx
  rcases List.mem_append.mp hx with h | h
  · exact h1 x h
  · exact h2 x h

theorem forall_noLt_ite (c : Prop) [inst : Decidable c] (l₁ l₂ : List String)
    (h1 : ∀ x ∈ l₁, noLt x) (h2 : ∀ x ∈ l₂, noLt x) :
    ∀ x ∈ (if c then l₁ else l₂), noLt x := by
  split_ifs <;> assumption

theorem forall_noLt_nil : ∀ x ∈ ([] : List String), noLt x := by
  intro x hx
  simp at hx

theorem forall_noLt_cons (a : String) (l : List String) (ha : noLt a)
    (h : ∀ x ∈ l, noLt x) : ∀ x ∈ a :: l, noLt x := by
  intro x hx
  rcases List.mem_cons.mp hx with h2 | h2
  · rw [h2]
    exact ha
  · exact h x h2

theorem forall_noLt_ite_single (c : Prop) [inst : Decidable c] (a : String) (ha : noLt a) :
    ∀ x ∈ (if c then [a] else ([] : List String)), noLt x := by
  split_ifs
  · exact forall_noLt_cons _ _ ha forall_noLt_nil
  · exact forall_noLt_nil

theorem noLt_quoted (pre v : String) (hpre : noLt pre) (hv : noLt v) :
    noLt (pre ++ (v ++ "\"")) :=
  noLt_append _ _ hpre (noLt_append _ _ hv (noLt_of_all _ (by decide)))

theorem noLt_attrStr (attrs : List String) (h : ∀ x ∈ attrs, noLt x) :
    noLt (if attrs.length > 0 then " " ++ String.intercalate " " attrs else "") := by
  split_ifs
  · exact noLt_append _ _ (noLt_of_all _ (by decide))
      (intercalate_no_lt _ _ (noLt_of_all _ (by decide)) h)
  · exact noLt_of_all _ (by decide)

theorem strLast_append (a b : String) (c : Char) (hb : b.data.getLast? = some c) :
    (a ++ b).data.getLast? = some c := by
  rw [String.data_append, List.getLast?_append, hb]
  rfl

theorem join_cons_data (x : String) (l : List String) :
    (String.join (x :: l)).data = x.data ++ (String.join l).data := by
  rw [join_data, join_data]
  simp

theorem cnt_group_generic (attrStr R : String) (hattr : noLt attrStr) :
    cntSub gOpen ("<g" ++ (attrStr ++ (">" ++ (R ++ "</g>")))).data =
      1 + cntSub gOpen R.data ∧
    cntSub gClose ("<g" ++ (attrStr ++ (">" ++ (R ++ "</g>")))).data =
      1 + cntSub gClose R.data := by
  constructor
  · rw [cntStr_append gOpen _ _ (splitSafe_of_left2 _ _ _ (by decide)),
      cnt_gOpen_skip _ _ hattr,
      cntStr_append gOpen ">" _ (splitSafe_of_left2 _ _ _ (by decide)),
      cntStr_append gOpen R "</g>" (splitSafe_of_right2 _ _ _ (by decide))]
    have c1 : cntSub gOpen ("<g" : String).data = 1 := by decide
    have c2 : cntSub gOpen (">" : String).data = 0 := by decide
    have c3 : cntSub gOpen ("</g>" : String).data = 0 := by decide
    rw [c1, c2, c3]
    omega
  · rw [cntStr_append gClose _ _ (splitSafe_of_left2 _ _ _ (by decide)),
      cnt_gClose_skip _ _ hattr,
      cntStr_append gClose ">" _ (splitSafe_of_left2 _ _ _ (by decide)),
      cntStr_append gClose R "</g>" (splitSafe_of_right2 _ _ _ (by decide))]
    have c1 : cntSub gClose ("<g" : String).data = 0 := by decide
    have c2 : cntSub gClose (">" : String).data = 0 := by decide
    have c3 : cntSub gClose ("</g>" : String).data = 1 := by decide
    rw [c1, c2, c3]
    omega

theorem tagFree_tspan (ts : TSpan) (hcls : noLt ts.cls) (hfill : noLt ts.fill) :
    tagFree (renderTSpan ts) := by
  simp only [renderTSpan, String.append_assoc]
  have hattr : noLt (if ((if ts.cls ≠ "" then ["class=\"" ++ (ts.cls ++ "\"")] else []) ++
      (if ts.fill ≠ "" then ["fill=\"" ++ (ts.fill ++ "\"")] else [])).length > 0 then
        " " ++ String.intercalate " " ((if ts.cls ≠ "" then ["class=\"" ++ (ts.cls ++ "\"")] else [])
          ++ (if ts.fill ≠ "" then ["fill=\"" ++ (ts.fill ++ "\"")] else []))
      else "") := by
    refine noLt_attrStr _ ?_
    refine forall_noLt_append _ _ ?_ ?_
    · refine forall_noLt_ite _ _ _ ?_ forall_noLt_nil
      exact forall_noLt_cons _ _ (noLt_quoted _ _ (noLt_of_all _ (by decide)) hcls)
        forall_noLt_nil
    · refine forall_noLt_ite _ _ _ ?_ forall_noLt_nil
      exact forall_noLt_cons _ _ (noLt_quoted _ _ (noLt_of_all _ (by decide)) hfill)
        forall_noLt_nil
  constructor
  · rw [cntStr_append gOpen _ _ (splitSafe_of_left2 _ _ _ (by decide)),
      cnt_gOpen_skip _ _ hattr,
      cntStr_append gOpen ">" _ (splitSafe_of_left2 _ _ _ (by decide)),
      cnt_gOpen_skip _ _ (escapeString_no_lt _)]
    have c1 : cntSub gOpen ("<tspan" : String).data = 0 := by decide
    have c2 : cntSub gOpen (">" : String).data = 0 := by decide
    have c3 : cntSub gOpen ("</tspan>" : String).data = 0 := by decide
    rw [c1, c2, c3]
  · rw [cntStr_append gClose _ _ (splitSafe_of_left2 _ _ _ (by decide)),
      cnt_gClose_skip _ _ hattr,
      cntStr_append gClose ">" _ (splitSafe_of_left2 _ _ _ (by decide)),
      cnt_gClose_skip _ _ (escapeString_no_lt _)]
    have c1 : cntSub gClose ("<tspan" : String).data = 0 := by decide
    have c2 : cntSub gClose (">" : String).data = 0 := by decide
    have c3 : cntSub gClose ("</tspan>" : String).data = 0 := by decide
    rw [c1, c2, c3]

theorem renderTSpan_last (ts : TSpan) : (renderTSpan ts).data.getLast? = some '>' := by
  simp only [renderTSpan]
  exact strLast_append _ _ _ (by decide)

theorem tagFree_join_tspans :
    ∀ spans : List TSpan, (∀ ts ∈ spans, noLt ts.cls ∧ noLt ts.fill) →
      tagFree (String.join (spans.map renderTSpan)) := by
  intro spans
  induction spans with
  | nil =>
    intro _
    exact ⟨by decide, by decide⟩
  | cons ts rest ih =>
    intro h
    have hts := h ts (List.mem_cons_self _ _)
    have hrest := ih (fun x hx => h x (List.mem_cons_of_mem _ hx))
    have hfree := tagFree_tspan ts hts.1 hts.2
    have hsafe1 : SplitSafe gOpen (renderTSpan ts).data
        (String.join (rest.map renderTSpan)).data :=
      splitSafe_lastChar2 _ _ _ '>' (renderTSpan_last ts) (by decide)
    have hsafe2 : SplitSafe gClose (renderTSpan ts).data
        (String.join (rest.map renderTSpan)).data :=
      splitSafe_lastChar2 _ _ _ '>' (renderTSpan_last ts) (by decide)
    constructor
    · rw [List.map_cons, join_cons_data, cntSub_append _ _ _ hsafe1, hfree.1, hrest.1]
    · rw [List.map_cons, join_cons_data, cntSub_append _ _ _ hsafe2, hfree.2, hrest.2]

mutual
/-- The attribute-position strings of the element (and recursively of
its children) contain no `<`: the condition under which the rendered
markup's structure is the element structure. -/
def wfEl : SVGElement → Prop
  | .group cls transform cs => noLt cls ∧ noLt transform ∧ wfEls cs
  | .rect _ _ _ _ _ _ fill stroke _ cls => noLt fill ∧ noLt stroke ∧ noLt cls
  | .text _ _ _ fontFamily _ fill anchor cls spans =>
      noLt fontFamily ∧ noLt fill ∧ noLt anchor ∧ noLt cls ∧
      ∀ ts ∈ spans, noLt ts.cls ∧ noLt ts.fill
  | .path d fill stroke _ cls => noLt d ∧ noLt fill ∧ noLt stroke ∧ noLt cls
  | .line _ _ _ _ stroke _ cls => noLt stroke ∧ noLt cls
  | .title _ => True
  | .svg _ _ viewBox style cs => noLt viewBox ∧ noLt style ∧ wfEls cs

/-- `wfEl` for every element of the list. -/
def wfEls : List SVGElement → Prop
  | [] => True
  | e :: rest => wfEl e ∧ wfEls rest
end

theorem renderElem_last_gt (e : SVGElement) : (renderElem e).data.getLast? = some '>' := by
  cases e <;> simp only [renderElem] <;> exact strLast_append _ _ _ (by decide)

set_option maxHeartbeats 2000000 in
theorem renderElem_tags_balanced :
    (∀ e : SVGElement, wfEl e →
      cntSub gOpen (renderElem e).data = cntSub gClose (renderElem e).data) ∧
    (∀ l : List SVGElement, wfEls l →
      cntSub gOpen (renderElems l).data = cntSub gClose (renderElems l).data) := by
  refine renderElem.mutual_induct
    (fun e => wfEl e → cntSub gOpen (renderElem e).data = cntSub gClose (renderElem e).data)
    (fun l => wfEls l → cntSub gOpen (renderElems l).data = cntSub gClose (renderElems l).data)
    ?_ ?_ ?_ ?_ ?_ ?_ ?_ ?_ ?_
  -- group
  · intro cls transform children ih hwf
    rcases hwf with ⟨hcls, htr, hch⟩
    have hattr : noLt (if ((if cls ≠ "" then ["class=\"" ++ (cls ++ "\"")] else []) ++
        (if transform ≠ "" then ["transform=\"" ++ (transform ++ "\"")] else [])).length > 0 then
          " " ++ String.intercalate " " ((if cls ≠ "" then ["class=\"" ++ (cls ++ "\"")] else [])
            ++ (if transform ≠ "" then ["transform=\"" ++ (transform ++ "\"")] else []))
        else "") := by
      refine noLt_attrStr _ ?_
      refine forall_noLt_append _ _ ?_ ?_
      · exact forall_noLt_ite_single _ _ (noLt_quoted _ _ (noLt_of_all _ (by decide)) hcls)
      · exact forall_noLt_ite_single _ _ (noLt_quoted _ _ (noLt_of_all _ (by decide)) htr)
    have hg := cnt_group_generic _ (renderElems children) hattr
    simp only [renderElem, String.append_assoc]
    rw [hg.1, hg.2, ih hch]
  -- rect
  · intro x y width height rx ry fill stroke strokeWidth cls hwf
    rcases hwf with ⟨h1, h2, h3⟩
    apply tagFree_balanced
    simp only [renderElem, String.append_assoc]
    refine tagFree_chunk3 _ _ _ (by decide) (by decide) ⟨by decide, by decide⟩ ?_
      ⟨by decide, by decide⟩
    refine intercalate_no_lt _ _ (noLt_of_all _ (by decide)) ?_
    simp only [List.forall_mem_append, List.forall_mem_cons]
    and_intros <;>
      first
        | exact noLt_quoted _ _ (noLt_of_all _ (by decide)) (fmtFloat_no_lt _)
        | exact noLt_quoted _ _ (noLt_of_all _ (by decide)) h1
        | exact noLt_quoted _ _ (noLt_of_all _ (by decide)) h2
        | exact noLt_quoted _ _ (noLt_of_all _ (by decide)) h3
        | exact forall_noLt_nil
        | exact forall_noLt_ite_single _ _
            (noLt_quoted _ _ (noLt_of_all _ (by decide)) (fmtFloat_no_lt _))
        | exact forall_noLt_ite_single _ _ (noLt_quoted _ _ (noLt_of_all _ (by decide)) h1)
        | exact forall_noLt_ite_single _ _ (noLt_quoted _ _ (noLt_of_all _ (by decide)) h2)
        | exact forall_noLt_ite_single _ _ (noLt_quoted _ _ (noLt_of_all _ (by decide)) h3)
  -- text
  · intro x y content fontFamily fontSize fill anchor cls spans hwf
    rcases hwf with ⟨h1, h2, h3, h4, h5⟩
    apply tagFree_balanced
    simp only [renderElem, String.append_assoc]
    refine tagFree_chunk3 _ _ _ (by decide) (by decide) ⟨by decide, by decide⟩ ?_ ?_
    · refine intercalate_no_lt _ _ (noLt_of_all _ (by decide)) ?_
      simp only [List.forall_mem_append, List.forall_mem_cons]
      and_intros <;>
        first
          | exact noLt_quoted _ _ (noLt_of_all _ (by decide)) (fmtFloat_no_lt _)
          | exact noLt_quoted _ _ (noLt_of_all _ (by decide)) h1
          | exact noLt_quoted _ _ (noLt_of_all _ (by decide)) h2
          | exact noLt_quoted _ _ (noLt_of_all _ (by decide)) h3
          | exact noLt_quoted _ _ (noLt_of_all _ (by decide)) h4
          | exact forall_noLt_nil
          | exact forall_noLt_ite_single _ _
              (noLt_quoted _ _ (noLt_of_all _ (by decide)) (fmtFloat_no_lt _))
          | exact forall_noLt_ite_single _ _ (noLt_quoted _ _ (noLt_of_all _ (by decide)) h1)
          | exact forall_noLt_ite_single _ _ (noLt_quoted _ _ (noLt_of_all _ (by decide)) h2)
          | exact forall_noLt_ite_single _ _ (noLt_quoted _ _ (noLt_of_all _ (by decide)) h3)
          | exact forall_noLt_ite_single _ _ (noLt_quoted _ _ (noLt_of_all _ (by decide)) h4)
    · have hinner : tagFree (if spans.length > 0 then String.join (spans.map renderTSpan)
          else escapeString content) := by
        split_ifs
        · exact tagFree_join_tspans spans h5
        · exact tagFree_of_noLt _ (escapeString_no_lt _)
      constructor
      · rw [cntStr_append gOpen ">" _ (splitSafe_of_left2 _ _ _ (by decide)),
          cntStr_append gOpen _ "</text>" (splitSafe_of_right2 _ _ _ (by decide)),
          hinner.1]
        decide
      · rw [cntStr_append gClose ">" _ (splitSafe_of_left2 _ _ _ (by decide)),
          cntStr_append gClose _ "</text>" (splitSafe_of_right2 _ _ _ (by decide)),
          hinner.2]
        decide
  -- path
  · intro d fill stroke strokeWidth cls hwf
    rcases hwf with ⟨h1, h2, h3, h4⟩
    apply tagFree_balanced
    simp only [renderElem, String.append_assoc]
    refine tagFree_chunk3 _ _ _ (by decide) (by decide) ⟨by decide, by decide⟩ ?_
      ⟨by decide, by decide⟩
    refine intercalate_no_lt _ _ (noLt_of_all _ (by decide)) ?_
    simp only [List.forall_mem_append, List.forall_mem_cons]
    and_intros <;>
      first
        | exact noLt_quoted _ _ (noLt_of_all _ (by decide)) h1
        | exact noLt_quoted _ _ (noLt_of_all _ (by decide)) h2
        | exact noLt_quoted _ _ (noLt_of_all _ (by decide)) h3
        | exact noLt_quoted _ _ (noLt_of_all _ (by decide)) h4
        | exact noLt_quoted _ _ (noLt_of_all _ (by decide)) (fmtFloat_no_lt _)
        | exact forall_noLt_nil
        | exact forall_noLt_ite _ _ _
            (forall_noLt_cons _ _ (noLt_quoted _ _ (noLt_of_all _ (by decide)) h2)
              forall_noLt_nil)
            (forall_noLt_cons _ _ (noLt_of_all _ (by decide)) forall_noLt_nil)
        | exact forall_noLt_ite_single _ _ (noLt_quoted _ _ (noLt_of_all _ (by decide)) h3)
        | exact forall_noLt_ite_single _ _ (noLt_quoted _ _ (noLt_of_all _ (by decide)) h4)
        | exact forall_noLt_ite_single _ _
            (noLt_quoted _ _ (noLt_of_all _ (by decide)) (fmtFloat_no_lt _))
  -- line
  · intro x1 y1 x2 y2 stroke strokeWidth cls hwf
    rcases hwf with ⟨h1, h2⟩
    apply tagFree_balanced
    simp only [renderElem, String.append_assoc]
    refine tagFree_chunk3 _ _ _ (by decide) (by decide) ⟨by decide, by decide⟩ ?_
      ⟨by decide, by decide⟩
    refine intercalate_no_lt _ _ (noLt_of_all _ (by decide)) ?_
    simp only [List.forall_mem_append, List.forall_mem_cons]
    and_intros <;>
      first
        | exact noLt_quoted _ _ (noLt_of_all _ (by decide)) (fmtFloat_no_lt _)
        | exact noLt_quoted _ _ (noLt_of_all _ (by decide)) h1
        | exact noLt_quoted _ _ (noLt_of_all _ (by decide)) h2
        | exact forall_noLt_nil
        | exact forall_noLt_ite_single _ _
            (noLt_quoted _ _ (noLt_of_all _ (by decide)) (fmtFloat_no_lt _))
        | exact forall_noLt_ite_single _ _ (noLt_quoted _ _ (noLt_of_all _ (by decide)) h1)
        | exact forall_noLt_ite_single _ _ (noLt_quoted _ _ (noLt_of_all _ (by decide)) h2)
  -- title
  · intro content _
    apply tagFree_balanced
    simp only [renderElem, String.append_assoc]
    constructor
    · rw [cntStr_append gOpen "<title>" _ (splitSafe_of_left2 _ _ _ (by decide)),
        cnt_gOpen_skip _ _ (escapeString_no_lt _)]
      decide
    · rw [cntStr_append gClose "<title>" _ (splitSafe_of_left2 _ _ _ (by decide)),
        cnt_gClose_skip _ _ (escapeString_no_lt _)]
      decide
  -- svg
  · intro width height viewBox style children ih hwf
    rcases hwf with ⟨h1, h2, hch⟩
    have hI : noLt (String.intercalate " " (["xmlns=\"http://www.w3.org/2000/svg\""]
        ++ (if width > 0 then ["width=\"" ++ (fmtFloat width ++ "\"")] else [])
        ++ (if height > 0 then ["height=\"" ++ (fmtFloat height ++ "\"")] else [])
        ++ (if viewBox ≠ "" then ["viewBox=\"" ++ (viewBox ++ "\"")] else []))) := by
      refine intercalate_no_lt _ _ (noLt_of_all _ (by decide)) ?_
      simp only [List.forall_mem_append, List.forall_mem_cons]
      and_intros <;>
        first
          | exact noLt_of_all _ (by decide)
          | exact forall_noLt_nil
          | exact forall_noLt_ite_single _ _
              (noLt_quoted _ _ (noLt_of_all _ (by decide)) (fmtFloat_no_lt _))
          | exact forall_noLt_ite_single _ _ (noLt_quoted _ _ (noLt_of_all _ (by decide)) h1)
    simp only [renderElem, String.append_assoc]
    have hstyle : ∀ R : String,
        cntSub gOpen ((if style ≠ "" then "<style>" ++ (style ++ "</style>") else "")
          ++ R).data = cntSub gOpen R.data ∧
        cntSub gClose ((if style ≠ "" then "<style>" ++ (style ++ "</style>") else "")
          ++ R).data = cntSub gClose R.data := by
      intro R
      split_ifs
      · simp only [String.append_assoc]
        constructor
        · rw [cntStr_append gOpen "<style>" _ (splitSafe_of_left2 _ _ _ (by decide)),
            cnt_gOpen_skip _ _ h2,
            cntStr_append gOpen "</style>" _ (splitSafe_of_left2 _ _ _ (by decide))]
          have c1 : cntSub gOpen ("<style>" : String).data = 0 := by decide
          have c2 : cntSub gOpen ("</style>" : String).data = 0 := by decide
          rw [c1, c2]
          omega
        · rw [cntStr_append gClose "<style>" _ (splitSafe_of_left2 _ _ _ (by decide)),
            cnt_gClose_skip _ _ h2,
            cntStr_append gClose "</style>" _ (splitSafe_of_left2 _ _ _ (by decide))]
          have c1 : cntSub gClose ("<style>" : String).data = 0 := by decide
          have c2 : cntSub gClose ("</style>" : String).data = 0 := by decide
          rw [c1, c2]
          omega
      · rw [String.empty_append]
        exact ⟨rfl, rfl⟩
    have hend : cntSub gOpen ((renderElems children) ++ "</svg>").data =
        cntSub gOpen (renderElems children).data ∧
        cntSub gClose ((renderElems children) ++ "</svg>").data =
        cntSub gClose (renderElems children).data := by
      constructor
      · rw [cntStr_append gOpen _ "</svg>" (splitSafe_of_right2 _ _ _ (by decide))]
        have c1 : cntSub gOpen ("</svg>" : String).data = 0 := by decide
        rw [c1]
        omega
      · rw [cntStr_append gClose _ "</svg>" (splitSafe_of_right2 _ _ _ (by decide))]
        have c1 : cntSub gClose ("</svg>" : String).data = 0 := by decide
        rw [c1]
        omega
    rw [cntStr_append gOpen "<svg " _ (splitSafe_of_left2 _ _ _ (by decide)),
      cnt_gOpen_skip _ _ hI,
      cntStr_append gOpen ">" _ (splitSafe_of_left2 _ _ _ (by decide)),
      (hstyle _).1, hend.1,
      cntStr_append gClose "<svg " _ (splitSafe_of_left2 _ _ _ (by decide)),
      cnt_gClose_skip _ _ hI,
      cntStr_append gClose ">" _ (splitSafe_of_left2 _ _ _ (by decide)),
      (hstyle _).2, hend.2, ih hch]
    have c1 : cntSub gOpen ("<svg " : String).data = 0 := by decide
    have c2 : cntSub gOpen (">" : String).data = 0 := by decide
    have c3 : cntSub gClose ("<svg " : String).data = 0 := by decide
    have c4 : cntSub gClose (">" : String).data = 0 := by decide
    rw [c1, c2, c3, c4]
  -- elems nil
  · intro _
    rfl
  -- elems cons
  · intro e rest ihe ihrest hwf
    rcases hwf with ⟨h1, h2⟩
    simp only [renderElems]
    rw [cntStr_append gOpen _ _
        (splitSafe_lastChar2 _ _ _ '>' (renderElem_last_gt e) (by decide)),
      cntStr_append gClose _ _
        (splitSafe_lastChar2 _ _ _ '>' (renderElem_last_gt e) (by decide)),
      ihe h1, ihrest h2]

/-- The configuration strings carry no `<` (true of `DefaultConfig`; a
config whose color strings contained markup could break the output's
structure). -/
def cfgNoMarkup (cfg : Config) : Prop :=
  noLt cfg.FontFamily ∧ noLt cfg.BackgroundColor ∧ noLt cfg.TextColor ∧ noLt cfg.LineColor ∧
  noLt cfg.LiteralFill ∧ noLt cfg.CharsetFill ∧ noLt cfg.EscapeFill ∧ noLt cfg.AnchorFill ∧
  noLt cfg.SubexpFill ∧ noLt cfg.SubexpStroke ∧ (∀ s ∈ cfg.SubexpColors, noLt s) ∧
  noLt cfg.AnyCharFill ∧ noLt cfg.FlagsFill ∧ noLt cfg.RepeatLabelColor ∧
  noLt cfg.RecursiveRefFill ∧ noLt cfg.CalloutFill ∧ noLt cfg.BacktrackControlFill ∧
  noLt cfg.ConditionalFill

theorem noLt_pbMoveTo (x y : ℚ) : noLt (pbMoveTo x y) :=
  noLt_append _ _ (noLt_append _ _ (noLt_append _ _ (noLt_of_all _ (by decide))
    (fmtFloat_no_lt _)) (noLt_of_all _ (by decide))) (fmtFloat_no_lt _)

theorem noLt_pbLineTo (x y : ℚ) : noLt (pbLineTo x y) :=
  noLt_append _ _ (noLt_append _ _ (noLt_append _ _ (noLt_of_all _ (by decide))
    (fmtFloat_no_lt _)) (noLt_of_all _ (by decide))) (fmtFloat_no_lt _)

theorem noLt_pbHorizontalTo (x : ℚ) : noLt (pbHorizontalTo x) :=
  noLt_append _ _ (noLt_of_all _ (by decide)) (fmtFloat_no_lt _)

theorem noLt_pbVerticalTo (y : ℚ) : noLt (pbVerticalTo y) :=
  noLt_append _ _ (noLt_of_all _ (by decide)) (fmtFloat_no_lt _)

theorem noLt_pbQuadraticTo (cx cy x y : ℚ) : noLt (pbQuadraticTo cx cy x y) := by
  refine noLt_append _ _ (noLt_append _ _ (noLt_append _ _ (noLt_append _ _
    (noLt_append _ _ (noLt_append _ _ (noLt_append _ _ (noLt_of_all _ (by decide))
      (fmtFloat_no_lt _)) (noLt_of_all _ (by decide))) (fmtFloat_no_lt _))
        (noLt_of_all _ (by decide))) (fmtFloat_no_lt _)) (noLt_of_all _ (by decide)))
          (fmtFloat_no_lt _)

theorem joinPath_no_lt : ∀ l : List String, (∀ x ∈ l, noLt x) → noLt (joinPath l) := by
  intro l
  induction l with
  | nil =>
    intro _
    exact noLt_of_all _ (by decide)
  | cons c rest ih =>
    intro h
    cases rest with
    | nil => simpa [joinPath] using h c (List.mem_cons_self _ _)
    | cons d rs =>
      simp only [joinPath]
      exact noLt_append _ _ (noLt_append _ _ (h c (List.mem_cons_self _ _))
        (noLt_of_all _ (by decide))) (ih (fun x hx => h x (List.mem_cons_of_mem _ hx)))

set_option maxHeartbeats 2000000 in
theorem getStyles_no_lt (cfg : Config) (hm : cfgNoMarkup cfg) : noLt (getStyles cfg) := by
  obtain ⟨h1, h2, h3, h4, h5, h6, h7, h8, h9, h10, h11, h12, h13, h14, h15, h16, h17, h18⟩ := hm
  simp only [getStyles]
  repeat' refine noLt_append _ _ ?_ ?_
  all_goals
    first
      | exact h1 | exact h2 | exact h3 | exact h4 | exact h5 | exact h6 | exact h7
      | exact h8 | exact h9 | exact h10 | exact h12 | exact h13 | exact h14
      | exact h15 | exact h16 | exact h17 | exact h18
      | exact fmtG_no_lt _
      | exact noLt_of_all _ (by decide)

theorem noLt_getD (l : List String) (i : Nat) (h : ∀ x ∈ l, noLt x) :
    noLt (l.getD i "") := by
  rw [List.getD_eq_getD_get?]
  rcases hlt : l.get? i with _ | x
  · exact noLt_of_all "" (by decide)
  · exact h x (List.get?_mem hlt)

theorem noLt_subexpFill (cfg : Config) (hm : cfgNoMarkup cfg) (d : Int) :
    noLt (subexpFillForDepth cfg d) := by
  simp only [subexpFillForDepth]
  split_ifs
  · exact hm.2.2.2.2.2.2.2.2.1
  · exact noLt_getD _ _ hm.2.2.2.2.2.2.2.2.2.2.1
  · exact hm.2.2.2.2.2.2.2.2.1

theorem noLt_translate2 (dx dy : ℚ) :
    noLt ("translate(" ++ fmtG dx ++ "," ++ fmtG dy ++ ")") := by
  repeat'
    first
      | exact fmtG_no_lt _
      | exact noLt_of_all _ (by decide)
      | refine noLt_append _ _ ?_ ?_

theorem wfEl_wrapWithTransform (e : SVGElement) (dx dy : ℚ) (h : wfEl e) :
    wfEl (wrapWithTransform e dx dy) := by
  simp only [wrapWithTransform]
  split_ifs
  · exact h
  · simp only [wfEl, wfEls]
    exact ⟨noLt_of_all _ (by decide), noLt_translate2 _ _, h, trivial⟩

theorem wfEls_itemTextsLoop (cfg : Config) (hm : cfgNoMarkup cfg) (width itemHeight : ℚ) :
    ∀ (items : List String) (y : ℚ), wfEls (itemTextsLoop cfg width itemHeight y items) := by
  intro items
  induction items with
  | nil =>
    intro y
    simp only [itemTextsLoop, wfEls]
  | cons it rest ih =>
    intro y
    simp only [itemTextsLoop, wfEls, wfEl]
    refine ⟨⟨hm.1, noLt_of_all _ (by decide), noLt_of_all _ (by decide),
      noLt_of_all _ (by decide), ?_⟩, ih (y + itemHeight)⟩
    intro ts hts
    simp at hts

theorem wfEl_renderLabel (cfg : Config) (hm : cfgNoMarkup cfg) (text cls : String)
    (hcls : noLt cls) : wfEl (renderLabel cfg text cls).Element := by
  simp only [renderLabel, wfEl, wfEls]
  refine ⟨hcls, noLt_of_all _ (by decide),
    ⟨noLt_of_all _ (by decide), noLt_of_all _ (by decide), noLt_of_all _ (by decide)⟩,
    ⟨hm.1, noLt_of_all _ (by decide), noLt_of_all _ (by decide),
      noLt_of_all _ (by decide), ?_⟩, trivial⟩
  intro ts hts
  simp at hts

theorem wfEl_renderQuotedLabel (cfg : Config) (hm : cfgNoMarkup cfg) (text cls : String)
    (hcls : noLt cls) : wfEl (renderQuotedLabel cfg text cls).Element := by
  simp only [renderQuotedLabel, wfEl, wfEls]
  refine ⟨hcls, noLt_of_all _ (by decide),
    ⟨noLt_of_all _ (by decide), noLt_of_all _ (by decide), noLt_of_all _ (by decide)⟩,
    ⟨hm.1, noLt_of_all _ (by decide), noLt_of_all _ (by decide),
      noLt_of_all _ (by decide), ?_⟩, trivial⟩
  intro ts hts
  fin_cases hts <;> constructor <;>
    first
      | exact noLt_of_all "quote" (by decide)
      | exact noLt_of_all "" (by decide)

theorem wfEl_renderFlags (cfg : Config) (hm : cfgNoMarkup cfg) (flags : String) :
    wfEl (renderFlags cfg flags).Element := by
  simp only [renderFlags, wfEl, wfEls, List.cons_append, List.nil_append]
  refine ⟨noLt_of_all _ (by decide), noLt_of_all _ (by decide),
    ⟨noLt_of_all _ (by decide), noLt_of_all _ (by decide), noLt_of_all _ (by decide)⟩,
    ⟨hm.1, noLt_of_all _ (by decide), noLt_of_all _ (by decide),
      noLt_of_all _ (by decide), ?_⟩, ?_⟩
  · intro ts hts
    simp at hts
  · exact wfEls_itemTextsLoop cfg hm _ _ _ _

theorem wfEl_renderPatternOptions (cfg : Config) (hm : cfgNoMarkup cfg)
    (options : List PatternOption) : wfEl (renderPatternOptions cfg options).Element := by
  simp only [renderPatternOptions, wfEl, wfEls]
  refine ⟨noLt_of_all _ (by decide), noLt_of_all _ (by decide),
    ⟨noLt_of_all _ (by decide), noLt_of_all _ (by decide), noLt_of_all _ (by decide)⟩,
    ⟨hm.1, noLt_of_all _ (by decide), noLt_of_all _ (by decide),
      noLt_of_all _ (by decide), ?_⟩, trivial⟩
  intro ts hts
  simp at hts

theorem wfEl_renderComment (cfg : Config) (hm : cfgNoMarkup cfg) (t : String) :
    wfEl (renderComment cfg t).Element := by
  simp only [renderComment, wfEl, wfEls]
  refine ⟨noLt_of_all _ (by decide), noLt_of_all _ (by decide),
    ⟨noLt_of_all _ (by decide), noLt_of_all _ (by decide), noLt_of_all _ (by decide)⟩,
    ⟨hm.1, noLt_of_all _ (by decide), noLt_of_all _ (by decide),
      noLt_of_all _ (by decide), ?_⟩, trivial⟩
  intro ts hts
  simp at hts

theorem wfEl_renderAnchor (cfg : Config) (hm : cfgNoMarkup cfg) (a : String) :
    wfEl (renderAnchor cfg a).Element := by
  simp only [renderAnchor]
  exact wfEl_renderLabel cfg hm _ _ (noLt_of_all _ (by decide))

theorem wfEl_renderBackReference (cfg : Config) (hm : cfgNoMarkup cfg) (n : Int) (nm : String) :
    wfEl (renderBackReference cfg n nm).Element := by
  simp only [renderBackReference]
  exact wfEl_renderLabel cfg hm _ _ (noLt_of_all _ (by decide))

theorem wfEl_renderUnicodePropertyEscape (cfg : Config) (hm : cfgNoMarkup cfg) (p : String)
    (neg : Bool) : wfEl (renderUnicodePropertyEscape cfg p neg).Element := by
  simp only [renderUnicodePropertyEscape]
  exact wfEl_renderLabel cfg hm _ _ (noLt_of_all _ (by decide))

theorem wfEl_renderRecursiveRef (cfg : Config) (hm : cfgNoMarkup cfg) (t : String) :
    wfEl (renderRecursiveRef cfg t).Element := by
  simp only [renderRecursiveRef]
  exact wfEl_renderLabel cfg hm _ _ (noLt_of_all _ (by decide))

theorem wfEl_renderBacktrackControl (cfg : Config) (hm : cfgNoMarkup cfg) (v a : String) :
    wfEl (renderBacktrackControl cfg v a).Element := by
  simp only [renderBacktrackControl]
  exact wfEl_renderLabel cfg hm _ _ (noLt_of_all _ (by decide))

theorem wfEl_renderCallout (cfg : Config) (hm : cfgNoMarkup cfg) (n : Int) (t : String) :
    wfEl (renderCallout cfg n t).Element := by
  simp only [renderCallout]
  exact wfEl_renderLabel cfg hm _ _ (noLt_of_all _ (by decide))

theorem wfEl_renderLabeledBox (cfg : Config) (hm : cfgNoMarkup cfg) (label : String)
    (items : List String) (cls : String) (hcls : noLt cls) :
    wfEl (renderLabeledBox cfg label items cls).Element := by
  simp only [renderLabeledBox, wfEl, wfEls, List.cons_append, List.nil_append]
  refine ⟨hcls, noLt_of_all _ (by decide),
    ⟨noLt_of_all _ (by decide), noLt_of_all _ (by decide), noLt_of_all _ (by decide)⟩,
    ⟨hm.1, noLt_of_all _ (by decide), noLt_of_all _ (by decide),
      noLt_append _ _ hcls (noLt_of_all _ (by decide)), ?_⟩, ?_⟩
  · intro ts hts
    simp at hts
  · exact wfEls_itemTextsLoop cfg hm _ _ _ _

theorem wfEl_renderCharset (cfg : Config) (hm : cfgNoMarkup cfg) (inv : Bool)
    (items : List CharsetItem) : wfEl (renderCharset cfg inv items).Element := by
  simp only [renderCharset]
  exact wfEl_renderLabeledBox cfg hm _ _ _ (noLt_of_all _ (by decide))

theorem wfEls_append (l₁ l₂ : List SVGElement) (h1 : wfEls l₁) (h2 : wfEls l₂) :
    wfEls (l₁ ++ l₂) := by
  induction l₁ with
  | nil => simpa using h2
  | cons e rest ih =>
    rw [List.cons_append]
    simp only [wfEls] at h1 ⊢
    exact ⟨h1.1, ih h1.2⟩

theorem wfEls_ite (c : Prop) [inst : Decidable c] (l₁ l₂ : List SVGElement)
    (h1 : wfEls l₁) (h2 : wfEls l₂) : wfEls (if c then l₁ else l₂) := by
  split_ifs <;> assumption

set_option maxHeartbeats 1000000 in
theorem wfEl_renderWithRepeat (cfg : Config) (hm : cfgNoMarkup cfg) (content : RenderedNode)
    (rep : Repeat) (hc : wfEl content.Element) :
    wfEl (renderWithRepeat cfg content rep).Element := by
  have hLC := hm.2.2.2.1
  simp only [renderWithRepeat, wfEl]
  refine ⟨noLt_of_all _ (by decide), noLt_of_all _ (by decide), ?_⟩
  refine wfEls_append _ _ (wfEls_append _ _ (wfEls_append _ _ ?_ ?_) ?_) ?_
  · refine wfEls_ite _ _ _ ?_ trivial
    simp only [wfEls, wfEl]
    refine ⟨⟨?_, noLt_of_all _ (by decide), hLC, noLt_of_all _ (by decide)⟩, trivial⟩
    refine joinPath_no_lt _ ?_
    intro x hx
    fin_cases hx
    · exact noLt_pbMoveTo _ _
    · exact noLt_pbQuadraticTo _ _ _ _
    · exact noLt_pbHorizontalTo _
    · exact noLt_pbQuadraticTo _ _ _ _
  · refine wfEls_ite _ _ _ ?_ trivial
    refine wfEls_append _ _ ?_ ?_
    · simp only [wfEls, wfEl]
      refine ⟨⟨?_, noLt_of_all _ (by decide), hLC, noLt_of_all _ (by decide)⟩,
        ⟨?_, noLt_of_all _ (by decide), hLC, noLt_of_all _ (by decide)⟩, trivial⟩
      · refine joinPath_no_lt _ ?_
        intro x hx
        fin_cases hx
        · exact noLt_pbMoveTo _ _
        · exact noLt_pbQuadraticTo _ _ _ _
        · exact noLt_pbHorizontalTo _
        · exact noLt_pbQuadraticTo _ _ _ _
      · split_ifs <;>
          repeat'
            first
              | exact fmtG_no_lt _
              | exact noLt_of_all _ (by decide)
              | refine noLt_append _ _ ?_ ?_
    · refine wfEls_ite _ _ _ ?_ trivial
      simp only [wfEls, wfEl]
      refine ⟨⟨hm.1, noLt_of_all _ (by decide), noLt_of_all _ (by decide),
        noLt_of_all _ (by decide), ?_⟩, trivial⟩
      intro ts hts
      simp at hts
  · simp only [wfEls, wfEl]
    exact ⟨⟨noLt_of_all _ (by decide), noLt_translate2 _ _, hc, trivial⟩, trivial⟩
  · refine wfEls_ite _ _ _ ?_ trivial
    simp only [wfEls, wfEl]
    exact ⟨⟨hLC, noLt_of_all _ (by decide)⟩, ⟨hLC, noLt_of_all _ (by decide)⟩, trivial⟩

theorem wfEl_renderSubexpBox (cfg : Config) (hm : cfgNoMarkup cfg) (label : String)
    (content : RenderedNode) (fill : String) (hf : noLt fill) (hc : wfEl content.Element) :
    wfEl (renderSubexpBox cfg label content fill).Element := by
  simp only [renderSubexpBox, wfEl, wfEls]
  refine ⟨noLt_of_all _ (by decide), noLt_of_all _ (by decide),
    ⟨hf, hm.2.2.2.2.2.2.2.2.2.1, noLt_of_all _ (by decide)⟩,
    ⟨hm.1, noLt_of_all _ (by decide), noLt_of_all _ (by decide),
      noLt_of_all _ (by decide), ?_⟩,
    ⟨noLt_of_all _ (by decide), noLt_translate2 _ _, hc, trivial⟩, trivial⟩
  intro ts hts
  simp at hts

theorem wfEl_renderLabeledBoxWithContent (cfg : Config) (hm : cfgNoMarkup cfg) (label : String)
    (content : RenderedNode) (cls : String) (hcls : noLt cls) (hc : wfEl content.Element) :
    wfEl (renderLabeledBoxWithContent cfg label content cls).Element := by
  simp only [renderLabeledBoxWithContent, wfEl, wfEls]
  refine ⟨hcls, noLt_of_all _ (by decide),
    ⟨noLt_of_all _ (by decide), noLt_of_all _ (by decide), noLt_of_all _ (by decide)⟩,
    ⟨hm.1, noLt_of_all _ (by decide), noLt_of_all _ (by decide),
      noLt_append _ _ hcls (noLt_of_all _ (by decide)), ?_⟩,
    ⟨noLt_of_all _ (by decide), noLt_translate2 _ _, hc, trivial⟩, trivial⟩
  intro ts hts
  simp at hts

theorem noLt_matchConnCmds (y : ℚ) :
    ∀ l : List RenderedNode, ∀ x ∈ matchConnCmds y l, noLt x := by
  intro l
  induction l with
  | nil =>
    intro x hx
    simp [matchConnCmds] at hx
  | cons it rest ih =>
    intro x hx
    cases rest with
    | nil =>
      simp only [matchConnCmds, List.mem_singleton] at hx
      rw [hx]
      exact noLt_pbLineTo _ _
    | cons b rs =>
      simp only [matchConnCmds] at hx
      rcases List.mem_cons.mp hx with h | h
      · rw [h]
        exact noLt_pbLineTo _ _
      rcases List.mem_cons.mp h with h | h
      · rw [h]
        exact noLt_pbMoveTo _ _
      · exact ih x h

theorem wfEls_map_elems (l : List RenderedNode) (h : ∀ r ∈ l, wfEl r.Element) :
    wfEls (l.map (·.Element)) := by
  induction l with
  | nil => trivial
  | cons r rest ih =>
    simp only [List.map_cons, wfEls]
    exact ⟨h r (List.mem_cons_self _ _), ih (fun x hx => h x (List.mem_cons_of_mem _ hx))⟩

theorem wfEl_assembleMatch (cfg : Config) (hm : cfgNoMarkup cfg)
    (spacedItems : List RenderedNode) (totalBBox : BoundingBox)
    (h : ∀ r ∈ spacedItems, wfEl r.Element) :
    wfEl (assembleMatch cfg spacedItems totalBBox).Element := by
  simp only [assembleMatch, wfEl]
  refine ⟨noLt_of_all _ (by decide), noLt_of_all _ (by decide), ?_⟩
  refine wfEls_append _ _ ?_ (wfEls_map_elems _ h)
  refine wfEls_ite _ _ _ ?_ trivial
  simp only [wfEls, wfEl]
  refine ⟨⟨?_, noLt_of_all _ (by decide), hm.2.2.2.1, noLt_of_all _ (by decide)⟩, trivial⟩
  refine joinPath_no_lt _ ?_
  intro x hx
  rcases List.mem_cons.mp hx with h2 | h2
  · rw [h2]
    exact noLt_pbMoveTo _ _
  · exact noLt_matchConnCmds _ _ x h2

theorem wfEls_altConnPaths (cfg : Config) (hm : cfgNoMarkup cfg)
    (width anchorY connectorWidth curveRadius : ℚ) :
    ∀ l : List RenderedNode, wfEls (altConnPaths cfg width anchorY connectorWidth
      curveRadius l) := by
  intro l
  induction l with
  | nil => trivial
  | cons it rest ih =>
    simp only [altConnPaths, wfEls, wfEl]
    refine ⟨⟨?_, noLt_of_all _ (by decide), hm.2.2.2.1, noLt_of_all _ (by decide)⟩,
      ⟨?_, noLt_of_all _ (by decide), hm.2.2.2.1, noLt_of_all _ (by decide)⟩, ih⟩
    · split_ifs <;>
      · refine joinPath_no_lt _ ?_
        intro x hx
        fin_cases hx <;>
          first
            | exact noLt_pbMoveTo _ _
            | exact noLt_pbQuadraticTo _ _ _ _
            | exact noLt_pbHorizontalTo _
            | exact noLt_pbVerticalTo _
    · split_ifs <;>
      · refine joinPath_no_lt _ ?_
        intro x hx
        fin_cases hx <;>
          first
            | exact noLt_pbMoveTo _ _
            | exact noLt_pbQuadraticTo _ _ _ _
            | exact noLt_pbHorizontalTo _
            | exact noLt_pbVerticalTo _

theorem wfEls_altItemGroups (connectorWidth : ℚ) :
    ∀ l : List RenderedNode, (∀ r ∈ l, wfEl r.Element) →
      wfEls (altItemGroups connectorWidth l) := by
  intro l
  induction l with
  | nil =>
    intro _
    trivial
  | cons it rest ih =>
    intro h
    simp only [altItemGroups, wfEls, wfEl]
    refine ⟨⟨noLt_of_all _ (by decide), ?_, h it (List.mem_cons_self _ _), trivial⟩,
      ih (fun x hx => h x (List.mem_cons_of_mem _ hx))⟩
    repeat'
      first
        | exact fmtG_no_lt _
        | exact noLt_of_all _ (by decide)
        | refine noLt_append _ _ ?_ ?_

theorem wfEl_assembleAlternation (cfg : Config) (hm : cfgNoMarkup cfg)
    (spacedItems : List RenderedNode) (totalBBox : BoundingBox)
    (h : ∀ r ∈ spacedItems, wfEl r.Element) :
    wfEl (assembleAlternation cfg spacedItems totalBBox).Element := by
  simp only [assembleAlternation, wfEl]
  refine ⟨noLt_of_all _ (by decide), noLt_of_all _ (by decide), ?_⟩
  exact wfEls_append _ _ (wfEls_altConnPaths cfg hm _ _ _ _ _)
    (wfEls_altItemGroups _ _ h)

theorem spaceHLoop_elems (padding M : ℚ) :
    ∀ (items : List RenderedNode) (x minY maxY : ℚ),
      ∀ r ∈ (spaceHLoop padding M x minY maxY items).1, ∃ it ∈ items, ∃ dx dy : ℚ,
        r.Element = wrapWithTransform it.Element dx dy := by
  intro items
  induction items with
  | nil =>
    intro x minY maxY r hr
    simp [spaceHLoop] at hr
  | cons it rest ih =>
    intro x minY maxY r hr
    simp only [spaceHLoop] at hr
    set nb := it.BBox.Translate (x - it.BBox.X) (M - it.BBox.AnchorY) with hnb
    rcases heq : spaceHLoop padding M (nb.X2 + padding)
        (if nb.Y < minY then nb.Y else minY)
        (if nb.Y2 > maxY then nb.Y2 else maxY) rest with ⟨rs, xf, minf, maxf⟩
    rw [heq] at hr
    dsimp only at hr
    rcases List.mem_cons.mp hr with h | h
    · subst h
      exact ⟨it, List.mem_cons_self _ _, _, _, rfl⟩
    · rcases ih (nb.X2 + padding) _ _ r (by rw [heq]; exact h) with ⟨it2, hit2, dx, dy, he⟩
      exact ⟨it2, List.mem_cons_of_mem _ hit2, dx, dy, he⟩

theorem spaceVLoop_elems (padding mw : ℚ) :
    ∀ (items : List RenderedNode) (y : ℚ),
      ∀ r ∈ (spaceVLoop padding mw y items).1, ∃ it ∈ items, ∃ dx dy : ℚ,
        r.Element = wrapWithTransform it.Element dx dy := by
  intro items
  induction items with
  | nil =>
    intro y r hr
    simp [spaceVLoop] at hr
  | cons it rest ih =>
    intro y r hr
    simp only [spaceVLoop] at hr
    set nb := it.BBox.Translate ((mw - it.BBox.Width) / 2 - it.BBox.X) (y - it.BBox.Y) with hnb
    rcases heq : spaceVLoop padding mw (nb.Y2 + padding) rest with ⟨rs, yf⟩
    rw [heq] at hr
    dsimp only at hr
    rcases List.mem_cons.mp hr with h | h
    · subst h
      exact ⟨it, List.mem_cons_self _ _, _, _, rfl⟩
    · rcases ih (nb.Y2 + padding) r (by rw [heq]; exact h) with ⟨it2, hit2, dx, dy, he⟩
      exact ⟨it2, List.mem_cons_of_mem _ hit2, dx, dy, he⟩

theorem SpaceHorizontally_wf (items : List RenderedNode) (gap : ℚ)
    (h : ∀ it ∈ items, wfEl it.Element) :
    ∀ r ∈ (SpaceHorizontally items gap).1, wfEl r.Element := by
  intro r hr
  cases items with
  | nil => simp [SpaceHorizontally] at hr
  | cons a rest =>
    simp only [SpaceHorizontally] at hr
    rcases hloop : spaceHLoop gap (maxAnchorYLoop 0 (a :: rest)) 0 maxFloat64 0 (a :: rest)
      with ⟨result, xf, minf, maxf⟩
    rw [hloop] at hr
    dsimp only at hr
    have h2 := spaceHLoop_elems gap (maxAnchorYLoop 0 (a :: rest)) (a :: rest) 0 maxFloat64 0 r
      (by rw [hloop]; exact hr)
    rcases h2 with ⟨it, hit, dx, dy, he⟩
    rw [he]
    exact wfEl_wrapWithTransform _ _ _ (h it hit)

theorem SpaceVertically_wf (items : List RenderedNode) (gap : ℚ)
    (h : ∀ it ∈ items, wfEl it.Element) :
    ∀ r ∈ (SpaceVertically items gap).1, wfEl r.Element := by
  intro r hr
  cases items with
  | nil => simp [SpaceVertically] at hr
  | cons a rest =>
    simp only [SpaceVertically] at hr
    rcases hloop : spaceVLoop gap (maxWidthLoop 0 (a :: rest)) 0 (a :: rest)
      with ⟨result, yf⟩
    rw [hloop] at hr
    dsimp only at hr
    have h2 := spaceVLoop_elems gap (maxWidthLoop 0 (a :: rest)) (a :: rest) 0 r
      (by rw [hloop]; exact hr)
    rcases h2 with ⟨it, hit, dx, dy, he⟩
    rw [he]
    exact wfEl_wrapWithTransform _ _ _ (h it hit)
